import Mathlib

/-!
A verification development for the student-CRUD API repository.

The in-memory student store and its request handlers (`routes/students.js`)
and the two authentication guards (`requireJwt`, `requireCookieLogin` in
`server.js`) are shallowly embedded as pure Lean functions.  JavaScript
runtime values appearing in request payloads are modelled by `JsValue`
(strings, numbers, booleans, `null`, and a collective constructor for the
remaining object-like values); an absent (`undefined`) field is `none`.
JS numbers are modelled by `Int` (the bodies arrive as JSON, which has no
`NaN`/`Infinity`, and none of the verified properties depend on fractional
values).  `String.prototype.toLowerCase` is modelled by per-character
lowercasing (`jsToLower`).  The mutable `students` array is threaded
explicitly: every handler takes the store and returns the response
outcome together with the resulting store.  The synchronous file write
(`saveStudents`) has no effect on the in-memory state and is not part of
the model.
-/

namespace ApiStudents

/-- A JavaScript runtime value occurring in a parsed JSON request body. -/
inductive JsValue where
  | str (s : String)
  | num (n : Int)
  | bool (b : Bool)
  | null
  | obj
deriving DecidableEq, Repr

/-- The destructured request body `{ name, age, email, isActive } = req.body || {}`;
`none` models an absent (`undefined`) field. -/
structure Payload where
  name : Option JsValue
  age : Option JsValue
  email : Option JsValue
  isActive : Option JsValue
deriving DecidableEq, Repr

/-- One record of the `students` array. -/
structure Student where
  id : Int
  name : String
  age : Int
  email : String
  isActive : Bool
deriving DecidableEq, Repr

instance : Inhabited Student := ⟨⟨0, "", 0, "", false⟩⟩

/-- Model of `String.prototype.toLowerCase()`: lowercase each character. -/
def jsToLower (s : String) : String := String.mk (s.data.map Char.toLower)

/-- JavaScript truthiness of a possibly-absent value (`!x` is its negation). -/
def truthy : Option JsValue → Bool
  | some (.str s) => s != ""
  | some (.num n) => n != 0
  | some (.bool b) => b
  | some .null => false
  | some .obj => true
  | none => false

/-- `typeof x === "string"`. -/
def isStr : Option JsValue → Bool
  | some (.str _) => true
  | _ => false

/-- `typeof x === "number"`. -/
def isNum : Option JsValue → Bool
  | some (.num _) => true
  | _ => false

/-- `typeof x === "boolean"`. -/
def isBool : Option JsValue → Bool
  | some (.bool _) => true
  | _ => false

/-- The string content of a value (used only after validation has
established that the value is a string). -/
def strVal : Option JsValue → String
  | some (.str s) => s
  | _ => ""

/-- The numeric content of a value (used only after validation). -/
def numVal : Option JsValue → Int
  | some (.num n) => n
  | _ => 0

/-- The boolean content of a value (used only after validation). -/
def boolVal : Option JsValue → Bool
  | some (.bool b) => b
  | _ => false

/-- The `errors` list built by the create/PUT validation block: one fixed
message per violated rule, pushed in source order name, age, email, isActive. -/
def validateFull (b : Payload) : List String :=
  (if ¬ truthy b.name ∨ ¬ isStr b.name then ["name is required and must be a string"] else [])
    ++ (if b.age = none ∨ ¬ isNum b.age ∨ numVal b.age ≤ 0 then
          ["age is required and must be a positive number"] else [])
    ++ (if ¬ truthy b.email ∨ ¬ isStr b.email then
          ["email is required and must be a string"] else [])
    ++ (if ¬ isBool b.isActive then ["isActive is required and must be a boolean"] else [])

/-- `students.reduce((max, s) => (s.id > max ? s.id : max), 0)`. -/
def maxId (l : List Student) : Int :=
  l.foldl (fun m s => if s.id > m then s.id else m) 0

/-- `Array.prototype.findIndex`, as the index of the first match (the
source's `-1` sentinel is rendered as `none`). -/
def findIndex (p : α → Bool) : List α → Option Nat
  | [] => none
  | x :: xs => if p x then some 0 else (findIndex p xs).map (· + 1)

/-- Outcome of `POST /students` (after the JWT guard). -/
inductive CreateResult where
  | badRequest (details : List String)
  | conflict (existing : Student)
  | created (student : Student)
deriving DecidableEq, Repr

/-- HTTP status attached to each create outcome. -/
def CreateResult.status : CreateResult → Nat
  | .badRequest _ => 400
  | .conflict _ => 409
  | .created _ => 201

/-- Outcome of `PUT /students/:id` (after the JWT guard, numeric id). -/
inductive UpdateResult where
  | notFound
  | badRequest (details : List String)
  | conflict (existing : Student)
  | updated (student : Student)
deriving DecidableEq, Repr

/-- HTTP status attached to each PUT outcome. -/
def UpdateResult.status : UpdateResult → Nat
  | .notFound => 404
  | .badRequest _ => 400
  | .conflict _ => 409
  | .updated _ => 200

/-- Outcome of `PATCH /students/:id` (after the JWT guard, numeric id). -/
inductive PatchResult where
  | notFound
  | badRequest (message : String)
  | conflict (existing : Student)
  | updated (student : Student)
deriving DecidableEq, Repr

/-- HTTP status attached to each PATCH outcome. -/
def PatchResult.status : PatchResult → Nat
  | .notFound => 404
  | .badRequest _ => 400
  | .conflict _ => 409
  | .updated _ => 200

/-- Outcome of `DELETE /students/:id` (after the JWT guard, numeric id). -/
inductive DeleteResult where
  | notFound
  | deleted (student : Student)
deriving DecidableEq, Repr

/-- HTTP status attached to each DELETE outcome. -/
def DeleteResult.status : DeleteResult → Nat
  | .notFound => 404
  | .deleted _ => 200

/-- The `router.post("/")` create handler: validate, reject duplicate
email (case-insensitive), assign `maxId + 1`, append. -/
def create (l : List Student) (b : Payload) : CreateResult × List Student :=
  let errors := validateFull b
  if errors ≠ [] then (.badRequest errors, l)
  else
    match l.find? (fun s => jsToLower s.email == jsToLower (strVal b.email)) with
    | some existing => (.conflict existing, l)
    | none =>
      let newStudent : Student :=
        { id := maxId l + 1, name := strVal b.name, age := numVal b.age,
          email := strVal b.email, isActive := boolVal b.isActive }
      (.created newStudent, l ++ [newStudent])

/-- The `router.put("/:id")` full-replace handler: find index, validate,
reject duplicate email on a *different* id, overwrite in place. -/
def replace (l : List Student) (id : Int) (b : Payload) : UpdateResult × List Student :=
  match findIndex (fun s => s.id == id) l with
  | none => (.notFound, l)
  | some index =>
    let errors := validateFull b
    if errors ≠ [] then (.badRequest errors, l)
    else
      match l.find? (fun s => jsToLower s.email == jsToLower (strVal b.email) && s.id != id) with
      | some existing => (.conflict existing, l)
      | none =>
        let updatedStudent : Student :=
          { id := id, name := strVal b.name, age := numVal b.age,
            email := strVal b.email, isActive := boolVal b.isActive }
        (.updated updatedStudent, l.set index updatedStudent)

/-- PATCH error message for a non-string `name`. -/
def invalidNameMsg : String := "Invalid \x27name\x27. Must be a string."

/-- PATCH error message for a non-number or non-positive `age`. -/
def invalidAgeMsg : String := "Invalid \x27age\x27. Must be a positive number."

/-- PATCH error message for a non-string `email`. -/
def invalidEmailMsg : String := "Invalid \x27email\x27. Must be a string."

/-- PATCH error message for a non-boolean `isActive`. -/
def invalidActiveMsg : String := "Invalid \x27isActive\x27. Must be a boolean."

/-- PATCH `isActive` step.  The handler mutates the found record in place,
so the array state at every exit is `l.set i s` for the current record `s`. -/
def patchIsActive (l : List Student) (i : Nat) (s : Student) (b : Payload) :
    PatchResult × List Student :=
  match b.isActive with
  | none => (.updated s, l.set i s)
  | some (.bool v) =>
    let s2 := { s with isActive := v }
    (.updated s2, l.set i s2)
  | some _ => (.badRequest invalidActiveMsg, l.set i s)

/-- PATCH `email` step: type check, then the duplicate check over the
current (already partially mutated) array, then write the field. -/
def patchEmail (l : List Student) (i : Nat) (id : Int) (s : Student) (b : Payload) :
    PatchResult × List Student :=
  match b.email with
  | none => patchIsActive l i s b
  | some (.str em) =>
    match (l.set i s).find? (fun t => jsToLower t.email == jsToLower em && t.id != id) with
    | some existing => (.conflict existing, l.set i s)
    | none => patchIsActive l i { s with email := em } b
  | some _ => (.badRequest invalidEmailMsg, l.set i s)

/-- PATCH `age` step: `typeof age !== "number" || age <= 0` rejects. -/
def patchAge (l : List Student) (i : Nat) (id : Int) (s : Student) (b : Payload) :
    PatchResult × List Student :=
  match b.age with
  | none => patchEmail l i id s b
  | some (.num a) =>
    if a ≤ 0 then (.badRequest invalidAgeMsg, l.set i s)
    else patchEmail l i id { s with age := a } b
  | some _ => (.badRequest invalidAgeMsg, l.set i s)

/-- PATCH `name` step: only `typeof name !== "string"` rejects. -/
def patchName (l : List Student) (i : Nat) (id : Int) (s : Student) (b : Payload) :
    PatchResult × List Student :=
  match b.name with
  | none => patchAge l i id s b
  | some (.str nm) => patchAge l i id { s with name := nm } b
  | some _ => (.badRequest invalidNameMsg, l.set i s)

/-- The `router.patch("/:id")` handler: find the record, then apply the
present fields one at a time in source order, failing fast. -/
def patch (l : List Student) (id : Int) (b : Payload) : PatchResult × List Student :=
  match findIndex (fun s => s.id == id) l with
  | none => (.notFound, l)
  | some i => patchName l i id (l.getD i default) b

/-- The `router.delete("/:id")` handler: `splice(index, 1)`. -/
def deleteStudent (l : List Student) (id : Int) : DeleteResult × List Student :=
  match findIndex (fun s => s.id == id) l with
  | none => (.notFound, l)
  | some index => (.deleted (l.getD index default), l.eraseIdx index)

/-- The `{username, role}` identity carried by a decoded token or injected
by the cookie guard. -/
structure AuthUser where
  username : String
  role : String
deriving DecidableEq, Repr

/-- Split a character list at every occurrence of `sep`, keeping empty
pieces, as `String.prototype.split` does (`"".split(" ")` is `[""]`). -/
def splitOnChar (sep : Char) : List Char → List String
  | [] => [""]
  | x :: xs =>
    let rest := splitOnChar sep xs
    if x = sep then "" :: rest
    else
      match rest with
      | [] => [String.mk [x]]
      | r :: rs => String.mk (x :: r.data) :: rs

/-- Model of `h.split(sep)` for a one-character separator. -/
def jsSplit (sep : Char) (h : String) : List String := splitOnChar sep h.data

/-- Outcome of the `requireJwt` middleware. -/
inductive JwtOutcome where
  | missingHeader
  | badFormat
  | invalidToken (details : String)
  | ok (user : AuthUser)
deriving DecidableEq, Repr

/-- The `requireJwt` middleware from `server.js`.  `jwt.verify` is an
external library call, abstracted as a `verify` parameter returning either
the decoded payload or an error message.  The header is `none` when absent;
`!authHeader` in JS is also true for a present empty-string value. -/
def requireJwt (verify : String → Except String AuthUser) (authHeader : Option String) :
    JwtOutcome :=
  match authHeader with
  | none => .missingHeader
  | some h =>
    if h = "" then .missingHeader
    else
      let parts := jsSplit ' ' h
      if parts.length ≠ 2 ∨ parts.headD "" ≠ "Bearer" then .badFormat
      else
        match verify (parts.getD 1 "") with
        | .error msg => .invalidToken msg
        | .ok d => .ok d

/-- Outcome of the `requireCookieLogin` middleware. -/
inductive CookieOutcome where
  | missingCookie
  | invalidSession
  | ok (user : AuthUser)
deriving DecidableEq, Repr

/-- The `requireCookieLogin` middleware from `server.js`: the cookie must
equal the fixed value `"dummy-session-id"`; on success a fixed identity is
attached.  `!sessionId` in JS is also true for a present empty-string value. -/
def requireCookieLogin (sessionId : Option String) : CookieOutcome :=
  match sessionId with
  | none => .missingCookie
  | some c =>
    if c = "" then .missingCookie
    else if c ≠ "dummy-session-id" then .invalidSession
    else .ok ⟨"cookieUser", "cookie-tester"⟩

/-- Result of a JWT-guarded route: either the guard fails (the handler is
never invoked) or the handler's outcome. -/
inductive Guarded (α : Type) where
  | authFail (outcome : JwtOutcome)
  | handled (result : α)
deriving DecidableEq, Repr

/-- `router.post("/", requireJwt, handler)`: the guard runs first and on
failure the create handler never touches the store. -/
def guardedCreate (verify : String → Except String AuthUser) (authHeader : Option String)
    (l : List Student) (b : Payload) : Guarded CreateResult × List Student :=
  match requireJwt verify authHeader with
  | .ok _ => (.handled (create l b).1, (create l b).2)
  | o => (.authFail o, l)

/-- No two stored students share an email under case-insensitive comparison. -/
def EmailsDistinct (l : List Student) : Prop :=
  l.Pairwise (fun a b => jsToLower a.email ≠ jsToLower b.email)

/-- Every stored student's id is unique. -/
def IdsDistinct (l : List Student) : Prop :=
  l.Pairwise (fun a b => a.id ≠ b.id)

/-- The store invariant of the data model. -/
def StoreInv (l : List Student) : Prop := EmailsDistinct l ∧ IdsDistinct l

/-- The full-validation rule for `name`, stated from the spec: a non-empty
string. -/
def NameRule (b : Payload) : Prop := ∃ s, b.name = some (.str s) ∧ s ≠ ""

/-- The full-validation rule for `age`: a present number strictly greater
than zero. -/
def AgeRule (b : Payload) : Prop := ∃ n, b.age = some (.num n) ∧ 0 < n

/-- The full-validation rule for `email`: a non-empty string. -/
def EmailRule (b : Payload) : Prop := ∃ s, b.email = some (.str s) ∧ s ≠ ""

/-- The full-validation rule for `isActive`: a present boolean. -/
def ActiveRule (b : Payload) : Prop := ∃ v, b.isActive = some (.bool v)

/-- Boolean form of the non-empty-string rule (for `name` and `email`). -/
def nonEmptyStrB (o : Option JsValue) : Bool :=
  match o with
  | some (.str s) => s != ""
  | _ => false

/-- Boolean form of the strictly-positive-number rule (for `age`). -/
def posNumB (o : Option JsValue) : Bool :=
  match o with
  | some (.num n) => decide (0 < n)
  | _ => false

/-- Boolean form of the present-boolean rule (for `isActive`). -/
def boolPresentB (o : Option JsValue) : Bool :=
  match o with
  | some (.bool _) => true
  | _ => false

/-- The cumulative effect of a passing PATCH `name` step on the target
record: the written name when the field is present (necessarily as a
string for the step to pass), the identity otherwise. -/
def applyName (b : Payload) (s : Student) : Student :=
  match b.name with
  | some (.str nm) => { s with name := nm }
  | _ => s

/-- The cumulative effect of a passing PATCH `age` step on the target
record: the written age when the field is present, identity otherwise. -/
def applyAge (b : Payload) (s : Student) : Student :=
  match b.age with
  | some (.num n) => { s with age := n }
  | _ => s

/-- The cumulative effect of a passing PATCH `email` step on the target
record: the written email when the field is present, identity otherwise. -/
def applyEmail (b : Payload) (s : Student) : Student :=
  match b.email with
  | some (.str em) => { s with email := em }
  | _ => s

/-- A concrete stand-in for `jwt.verify` that accepts exactly one token,
used for witnesses and counterexamples. -/
def demoVerify : String → Except String AuthUser :=
  fun t => if t = "good-token" then .ok ⟨"testuser", "student-admin"⟩
           else .error "jwt malformed"

/-- The data file shipped with the repository (`data/students.json`),
used as a concrete store for witnesses. -/
def demoStore : List Student :=
  [⟨1, "Alice Johnson", 20, "alice@example.com", true⟩,
   ⟨2, "Bob Smith", 22, "bob@example.com", true⟩,
   ⟨3, "Charlie Brown", 19, "charlie@example.com", false⟩]

/-! ### Helper lemmas -/

theorem getD_eq_getElem (l : List Student) (i : Nat) (hi : i < l.length) :
    l.getD i default = l[i] := by
  simp [List.getD_eq_getElem?_getD, List.getElem?_eq_getElem hi]

theorem findIndex_some_lt {p : α → Bool} :
    ∀ {l : List α} {i : Nat}, findIndex p l = some i → i < l.length := by
  intro l
  induction l with
  | nil => intro i h; simp [findIndex] at h
  | cons x xs ih =>
    intro i h
    simp only [findIndex] at h
    by_cases hx : p x
    · rw [if_pos hx] at h
      obtain rfl : (0 : Nat) = i := Option.some.inj h
      simp
    · rw [if_neg hx] at h
      rcases Option.map_eq_some'.mp h with ⟨j, hj, rfl⟩
      have := ih hj
      simp only [List.length_cons]
      omega

theorem findIndex_some_prop {p : α → Bool} :
    ∀ {l : List α} {i : Nat}, findIndex p l = some i → ∀ hi : i < l.length, p (l.get ⟨i, hi⟩) := by
  intro l
  induction l with
  | nil => intro i h; simp [findIndex] at h
  | cons x xs ih =>
    intro i h hi
    simp only [findIndex] at h
    by_cases hx : p x
    · rw [if_pos hx] at h
      obtain rfl : (0 : Nat) = i := Option.some.inj h
      simpa using hx
    · rw [if_neg hx] at h
      rcases Option.map_eq_some'.mp h with ⟨j, hj, rfl⟩
      have hjlt := findIndex_some_lt hj
      simpa using ih hj hjlt

theorem findIndex_some_min {p : α → Bool} :
    ∀ {l : List α} {i : Nat}, findIndex p l = some i →
      ∀ j (hj : j < l.length), j < i → ¬ p (l.get ⟨j, hj⟩) := by
  intro l
  induction l with
  | nil => intro i h; simp [findIndex] at h
  | cons x xs ih =>
    intro i h j hj hji
    simp only [findIndex] at h
    by_cases hx : p x
    · rw [if_pos hx] at h
      obtain rfl : (0 : Nat) = i := Option.some.inj h
      omega
    · rw [if_neg hx] at h
      rcases Option.map_eq_some'.mp h with ⟨k, hk, rfl⟩
      match j with
      | 0 => simpa using hx
      | j' + 1 =>
        have hj' : j' < xs.length := by
          simp only [List.length_cons] at hj
          omega
        simpa using ih hk j' hj' (by omega)

theorem findIndex_eq_some_of {p : α → Bool} :
    ∀ {l : List α} {i : Nat} (hi : i < l.length), p (l.get ⟨i, hi⟩) →
      (∀ j (hj : j < l.length), j < i → ¬ p (l.get ⟨j, hj⟩)) → findIndex p l = some i := by
  intro l
  induction l with
  | nil => intro i hi; simp at hi
  | cons x xs ih =>
    intro i hi hp hmin
    match i with
    | 0 =>
      have : p x := by simpa using hp
      simp [findIndex, this]
    | i' + 1 =>
      have hx : ¬ p x := by
        have := hmin 0 (by simp) (by omega)
        simpa using this
      have hi' : i' < xs.length := by simpa using hi
      have hp' : p (xs.get ⟨i', hi'⟩) := by simpa using hp
      have hmin' : ∀ j (hj : j < xs.length), j < i' → ¬ p (xs.get ⟨j, hj⟩) := by
        intro j hj hji
        have := hmin (j + 1) (by simpa using Nat.succ_lt_succ hj) (by omega)
        simpa using this
      simp [findIndex, hx, ih hi' hp' hmin']

theorem maxId_ge_init (l : List Student) :
    ∀ init : Int, init ≤ l.foldl (fun m s => if s.id > m then s.id else m) init := by
  induction l with
  | nil => intro init; simp
  | cons x xs ih =>
    intro init
    simp only [List.foldl_cons]
    by_cases hgt : x.id > init
    · rw [if_pos hgt]
      have h2 := ih x.id
      omega
    · rw [if_neg hgt]
      exact ih init

theorem maxId_ge_mem (l : List Student) :
    ∀ (init : Int) (s : Student), s ∈ l →
      s.id ≤ l.foldl (fun m s => if s.id > m then s.id else m) init := by
  induction l with
  | nil => intro init s h; simp at h
  | cons x xs ih =>
    intro init s hmem
    simp only [List.foldl_cons]
    rcases List.mem_cons.mp hmem with rfl | hmem'
    · by_cases hgt : s.id > init
      · rw [if_pos hgt]
        exact maxId_ge_init xs s.id
      · rw [if_neg hgt]
        have h2 := maxId_ge_init xs init
        omega
    · exact ih _ s hmem'

theorem maxId_nonneg (l : List Student) : 0 ≤ maxId l := maxId_ge_init l 0

theorem maxId_ge (l : List Student) (s : Student) (h : s ∈ l) : s.id ≤ maxId l :=
  maxId_ge_mem l 0 s h

theorem maxId_cases (l : List Student) :
    ∀ init : Int,
      l.foldl (fun m s => if s.id > m then s.id else m) init = init ∨
      ∃ t ∈ l, l.foldl (fun m s => if s.id > m then s.id else m) init = t.id := by
  induction l with
  | nil => intro init; simp
  | cons x xs ih =>
    intro init
    simp only [List.foldl_cons]
    rcases ih (if x.id > init then x.id else init) with h | ⟨t, ht, heq⟩
    · rw [h]
      split
      · exact Or.inr ⟨x, by simp⟩
      · exact Or.inl rfl
    · exact Or.inr ⟨t, by simp [ht], heq⟩

theorem maxId_attained (l : List Student) (hne : l ≠ [])
    (hpos : ∀ s ∈ l, 0 ≤ s.id) : ∃ t ∈ l, maxId l = t.id := by
  cases l with
  | nil => exact absurd rfl hne
  | cons x xs =>
    rcases maxId_cases (x :: xs) 0 with h | h
    · have hfold : maxId (x :: xs) = 0 := h
      refine ⟨x, by simp, ?_⟩
      have h1 := maxId_ge (x :: xs) x (by simp)
      have h2 := hpos x (by simp)
      omega
    · exact h

theorem pairwise_ne_getElem {R : α → α → Prop} (hsym : ∀ a b, R a b → R b a)
    {l : List α} (hl : l.Pairwise R) (i j : Nat) (hi : i < l.length)
    (hj : j < l.length) (hne : i ≠ j) : R l[i] l[j] := by
  rw [List.pairwise_iff_getElem] at hl
  rcases Nat.lt_or_ge i j with h | h
  · exact hl i j hi hj h
  · exact hsym _ _ (hl j i hj hi (by omega))

theorem pairwise_set_of {R : α → α → Prop} (hsym : ∀ a b, R a b → R b a)
    {l : List α} {i : Nat} {a : α} (hl : l.Pairwise R)
    (ha : ∀ j (hj : j < l.length), j ≠ i → R a l[j]) :
    (l.set i a).Pairwise R := by
  rw [List.pairwise_iff_getElem] at hl ⊢
  intro i' j' hi' hj' hlt
  have hi'l : i' < l.length := by simpa using hi'
  have hj'l : j' < l.length := by simpa using hj'
  by_cases hii : i = i'
  · have h1 : (l.set i a)[i'] = a := by rw [List.getElem_set, if_pos hii]
    have h2 : (l.set i a)[j'] = l[j'] := by rw [List.getElem_set, if_neg (by omega)]
    rw [h1, h2]
    exact ha j' hj'l (by omega)
  · have h1 : (l.set i a)[i'] = l[i'] := by rw [List.getElem_set, if_neg hii]
    rw [h1]
    by_cases hij : i = j'
    · have h2 : (l.set i a)[j'] = a := by rw [List.getElem_set, if_pos hij]
      rw [h2]
      exact hsym _ _ (ha i' hi'l (by omega))
    · have h2 : (l.set i a)[j'] = l[j'] := by rw [List.getElem_set, if_neg hij]
      rw [h2]
      exact hl i' j' hi'l hj'l hlt

theorem set_getElem_self (l : List Student) (i : Nat) (hi : i < l.length) :
    l.set i l[i] = l := by
  apply List.ext_getElem
  · simp
  · intro j h1 h2
    rw [List.getElem_set]
    split
    · next heq => subst heq; rfl
    · rfl

theorem mem_set_iff (l : List Student) (i : Nat) (s : Student) (hi : i < l.length)
    (t : Student) :
    t ∈ l.set i s ↔ t = s ∨ ∃ j, ∃ hj : j < l.length, j ≠ i ∧ l[j] = t := by
  constructor
  · intro h
    rcases List.mem_iff_getElem.mp h with ⟨j, hj, hget⟩
    have hjl : j < l.length := by simpa using hj
    rw [List.getElem_set] at hget
    by_cases hij : i = j
    · rw [if_pos hij] at hget
      exact Or.inl hget.symm
    · rw [if_neg hij] at hget
      exact Or.inr ⟨j, hjl, fun hc => hij hc.symm, hget⟩
  · intro h
    rcases h with rfl | ⟨j, hj, hne, rfl⟩
    · exact List.mem_iff_getElem.mpr ⟨i, by simpa using hi, by rw [List.getElem_set, if_pos rfl]⟩
    · exact List.mem_iff_getElem.mpr
        ⟨j, by simpa using hj, by rw [List.getElem_set, if_neg (fun hc => hne hc.symm)]⟩

/-- Replacing the record at index `i` by one with the same id and an email
that clashes with no other position preserves the store invariant. -/
theorem storeInv_set (l : List Student) (i : Nat) (hi : i < l.length) (s' : Student)
    (hid : s'.id = l[i].id)
    (hem : ∀ j (hj : j < l.length), j ≠ i → jsToLower s'.email ≠ jsToLower l[j].email)
    (h : StoreInv l) : StoreInv (l.set i s') := by
  obtain ⟨hE, hI⟩ := h
  constructor
  · exact pairwise_set_of (fun a b hab => fun hc => hab hc.symm) hE
      (fun j hj hne => hem j hj hne)
  · refine pairwise_set_of (fun a b hab => fun hc => hab hc.symm) hI ?_
    intro j hj hne
    rw [hid]
    exact pairwise_ne_getElem (fun a b hab => fun hc => hab hc.symm) hI i j hi hj
      (fun hc => hne hc.symm)

theorem nonEmptyStrB_iff (o : Option JsValue) :
    nonEmptyStrB o = true ↔ ∃ s, o = some (.str s) ∧ s ≠ "" := by
  rcases o with _ | v
  · simp [nonEmptyStrB]
  · cases v with
    | str s => by_cases hs : s = "" <;> simp [nonEmptyStrB, hs]
    | num n => simp [nonEmptyStrB]
    | bool bv => simp [nonEmptyStrB]
    | null => simp [nonEmptyStrB]
    | obj => simp [nonEmptyStrB]

theorem posNumB_iff (o : Option JsValue) :
    posNumB o = true ↔ ∃ n, o = some (.num n) ∧ 0 < n := by
  rcases o with _ | v
  · simp [posNumB]
  · cases v with
    | str s => simp [posNumB]
    | num n => by_cases hn : 0 < n <;> simp [posNumB, hn]
    | bool bv => simp [posNumB]
    | null => simp [posNumB]
    | obj => simp [posNumB]

theorem boolPresentB_iff (o : Option JsValue) :
    boolPresentB o = true ↔ ∃ v, o = some (.bool v) := by
  rcases o with _ | v
  · simp [boolPresentB]
  · cases v with
    | str s => simp [boolPresentB]
    | num n => simp [boolPresentB]
    | bool bv => simp [boolPresentB]
    | null => simp [boolPresentB]
    | obj => simp [boolPresentB]

theorem str_check_seg (o : Option JsValue) (m : String) :
    (if ¬ truthy o ∨ ¬ isStr o then [m] else []) = (if nonEmptyStrB o then [] else [m]) := by
  rcases o with _ | v
  · simp [truthy, isStr, nonEmptyStrB]
  · cases v with
    | str s => by_cases hs : s = "" <;> simp [truthy, isStr, nonEmptyStrB, hs]
    | num n => simp [truthy, isStr, nonEmptyStrB]
    | bool bv => simp [truthy, isStr, nonEmptyStrB]
    | null => simp [truthy, isStr, nonEmptyStrB]
    | obj => simp [truthy, isStr, nonEmptyStrB]

theorem age_check_seg (o : Option JsValue) (m : String) :
    (if o = none ∨ ¬ isNum o ∨ numVal o ≤ 0 then [m] else []) = (if posNumB o then [] else [m]) := by
  rcases o with _ | v
  · simp [isNum, numVal, posNumB]
  · cases v with
    | str s => simp [isNum, numVal, posNumB]
    | num n =>
      by_cases hn : 0 < n
      · have hn' : ¬ n ≤ 0 := by omega
        simp [isNum, numVal, posNumB, hn, hn']
      · have hn' : n ≤ 0 := by omega
        simp [isNum, numVal, posNumB, hn, hn']
    | bool bv => simp [isNum, numVal, posNumB]
    | null => simp [isNum, numVal, posNumB]
    | obj => simp [isNum, numVal, posNumB]

theorem bool_check_seg (o : Option JsValue) (m : String) :
    (if ¬ isBool o then [m] else []) = (if boolPresentB o then [] else [m]) := by
  rcases o with _ | v
  · simp [isBool, boolPresentB]
  · cases v with
    | str s => simp [isBool, boolPresentB]
    | num n => simp [isBool, boolPresentB]
    | bool bv => simp [isBool, boolPresentB]
    | null => simp [isBool, boolPresentB]
    | obj => simp [isBool, boolPresentB]

theorem validateFull_eq_rules (b : Payload) :
    validateFull b =
      (if nonEmptyStrB b.name then [] else ["name is required and must be a string"])
        ++ (if posNumB b.age then [] else ["age is required and must be a positive number"])
        ++ (if nonEmptyStrB b.email then [] else ["email is required and must be a string"])
        ++ (if boolPresentB b.isActive then []
            else ["isActive is required and must be a boolean"]) := by
  unfold validateFull
  rw [str_check_seg, age_check_seg, str_check_seg, bool_check_seg]

/-- If the candidate record at position `i` carries the target id and no
record with a different id matches the email, the PATCH duplicate check
over the mutated array finds nothing. -/
theorem find_dup_none_of (l : List Student) (i : Nat) (hi : i < l.length) (s : Student)
    (id : Int) (em : String) (hsid : s.id = id)
    (hnodup : ∀ t ∈ l, t.id ≠ id → jsToLower t.email ≠ jsToLower em) :
    (l.set i s).find? (fun t => jsToLower t.email == jsToLower em && t.id != id) = none := by
  rw [List.find?_eq_none]
  intro t ht
  rcases (mem_set_iff l i s hi t).mp ht with rfl | ⟨j, hj, hne, rfl⟩
  · simp [hsid]
  · by_cases hid : l[j].id = id
    · simp [hid]
    · have hmail := hnodup l[j] (List.getElem_mem hj) hid
      simp [hmail]

/-- Conversely, a different-id case-insensitive email match in the store
makes the PATCH duplicate check over the mutated array find a conflicting
record with those properties. -/
theorem find_dup_some_of (l : List Student) (i : Nat) (hi : i < l.length) (s : Student)
    (id : Int) (em : String) (hsid : s.id = id) (hpid : l[i].id = id)
    (hdup : ∃ t ∈ l, t.id ≠ id ∧ jsToLower t.email = jsToLower em) :
    ∃ e, (l.set i s).find? (fun t => jsToLower t.email == jsToLower em && t.id != id) = some e ∧
      e ∈ l ∧ e.id ≠ id ∧ jsToLower e.email = jsToLower em := by
  obtain ⟨t, htmem, htid, htmail⟩ := hdup
  have hsome : ((l.set i s).find?
      (fun t => jsToLower t.email == jsToLower em && t.id != id)).isSome := by
    rw [List.find?_isSome]
    rcases List.mem_iff_getElem.mp htmem with ⟨j, hj, rfl⟩
    have hji : j ≠ i := by
      intro hc
      subst hc
      exact htid hpid
    refine ⟨l[j], ?_, ?_⟩
    · exact (mem_set_iff l i s hi l[j]).mpr (Or.inr ⟨j, hj, hji, rfl⟩)
    · simp [htmail, htid]
  rcases hfind : (l.set i s).find?
      (fun t => jsToLower t.email == jsToLower em && t.id != id) with _ | e
  · rw [hfind] at hsome
    simp at hsome
  · have hpe := List.find?_some hfind
    have hmem := List.mem_of_find?_eq_some hfind
    simp only [Bool.and_eq_true, beq_iff_eq, bne_iff_ne, ne_eq] at hpe
    refine ⟨e, hfind, ?_, hpe.2, hpe.1⟩
    rcases (mem_set_iff l i s hi e).mp hmem with rfl | ⟨j, hj, hne, rfl⟩
    · exact absurd hsid hpe.2
    · exact List.getElem_mem hj

/-! Reduction lemmas for the PATCH field chain. -/

theorem patch_reduce (l : List Student) (id : Int) (b : Payload) (i : Nat)
    (hf : findIndex (fun s => s.id == id) l = some i) (hi : i < l.length) :
    patch l id b = patchName l i id l[i] b := by
  simp [patch, hf, List.getElem?_eq_getElem hi]

theorem patchName_skip (l : List Student) (i : Nat) (id : Int) (s : Student) (b : Payload)
    (hn : b.name = none) : patchName l i id s b = patchAge l i id s b := by
  simp [patchName, hn]

theorem patchName_str (l : List Student) (i : Nat) (id : Int) (s : Student) (b : Payload)
    (nm : String) (hn : b.name = some (.str nm)) :
    patchName l i id s b = patchAge l i id { s with name := nm } b := by
  simp [patchName, hn]

theorem patchName_bad (l : List Student) (i : Nat) (id : Int) (s : Student) (b : Payload)
    (v : JsValue) (hn : b.name = some v) (hbad : ∀ nm, v ≠ .str nm) :
    patchName l i id s b = (.badRequest invalidNameMsg, l.set i s) := by
  cases v with
  | str nm => exact absurd rfl (hbad nm)
  | num n => simp [patchName, hn]
  | bool bv => simp [patchName, hn]
  | null => simp [patchName, hn]
  | obj => simp [patchName, hn]

theorem patchAge_skip (l : List Student) (i : Nat) (id : Int) (s : Student) (b : Payload)
    (ha : b.age = none) : patchAge l i id s b = patchEmail l i id s b := by
  simp [patchAge, ha]

theorem patchAge_num (l : List Student) (i : Nat) (id : Int) (s : Student) (b : Payload)
    (n : Int) (ha : b.age = some (.num n)) (hpos : 0 < n) :
    patchAge l i id s b = patchEmail l i id { s with age := n } b := by
  have hle : ¬ (n ≤ 0) := by omega
  simp [patchAge, ha, hle]

theorem patchAge_bad (l : List Student) (i : Nat) (id : Int) (s : Student) (b : Payload)
    (v : JsValue) (ha : b.age = some v) (hbad : ∀ n, v = .num n → n ≤ 0) :
    patchAge l i id s b = (.badRequest invalidAgeMsg, l.set i s) := by
  cases v with
  | num n =>
    have hle : n ≤ 0 := hbad n rfl
    simp [patchAge, ha, hle]
  | str s' => simp [patchAge, ha]
  | bool bv => simp [patchAge, ha]
  | null => simp [patchAge, ha]
  | obj => simp [patchAge, ha]

theorem patchEmail_skip (l : List Student) (i : Nat) (id : Int) (s : Student) (b : Payload)
    (he : b.email = none) : patchEmail l i id s b = patchIsActive l i s b := by
  simp [patchEmail, he]

theorem patchEmail_str (l : List Student) (i : Nat) (id : Int) (s : Student) (b : Payload)
    (em : String) (he : b.email = some (.str em))
    (hfind : (l.set i s).find? (fun t => jsToLower t.email == jsToLower em && t.id != id)
      = none) :
    patchEmail l i id s b = patchIsActive l i { s with email := em } b := by
  simp [patchEmail, he, hfind]

theorem patchEmail_conflict (l : List Student) (i : Nat) (id : Int) (s : Student)
    (b : Payload) (em : String) (e : Student) (he : b.email = some (.str em))
    (hfind : (l.set i s).find? (fun t => jsToLower t.email == jsToLower em && t.id != id)
      = some e) :
    patchEmail l i id s b = (.conflict e, l.set i s) := by
  simp [patchEmail, he, hfind]

theorem patchEmail_bad (l : List Student) (i : Nat) (id : Int) (s : Student) (b : Payload)
    (v : JsValue) (he : b.email = some v) (hbad : ∀ em, v ≠ .str em) :
    patchEmail l i id s b = (.badRequest invalidEmailMsg, l.set i s) := by
  cases v with
  | str em => exact absurd rfl (hbad em)
  | num n => simp [patchEmail, he]
  | bool bv => simp [patchEmail, he]
  | null => simp [patchEmail, he]
  | obj => simp [patchEmail, he]

theorem patchIsActive_skip (l : List Student) (i : Nat) (s : Student) (b : Payload)
    (hb : b.isActive = none) : patchIsActive l i s b = (.updated s, l.set i s) := by
  simp [patchIsActive, hb]

theorem patchIsActive_bool (l : List Student) (i : Nat) (s : Student) (b : Payload)
    (v : Bool) (hb : b.isActive = some (.bool v)) :
    patchIsActive l i s b =
      (.updated { s with isActive := v }, l.set i { s with isActive := v }) := by
  simp [patchIsActive, hb]

theorem patchIsActive_bad (l : List Student) (i : Nat) (s : Student) (b : Payload)
    (v : JsValue) (hb : b.isActive = some v) (hbad : ∀ bv, v ≠ .bool bv) :
    patchIsActive l i s b = (.badRequest invalidActiveMsg, l.set i s) := by
  cases v with
  | bool bv => exact absurd rfl (hbad bv)
  | str s' => simp [patchIsActive, hb]
  | num n => simp [patchIsActive, hb]
  | null => simp [patchIsActive, hb]
  | obj => simp [patchIsActive, hb]

/-! ### C1 -/

/-- C1: for every valid create (validation passes and no duplicate email),
the returned and appended student's id equals `max(ids of S, default 0) + 1`
(the source's fold); in particular it exceeds every id present before the
call, equals one plus the maximum id present when all ids are nonnegative
and the store is non-empty, and equals 1 on the empty store.  The appended
record carries exactly the validated name, age, email, isActive and the
assigned id, and the new store is the old store with that record appended. -/
theorem C1_create_assigns_max_plus_one (l : List Student) (b : Payload)
    (hv : validateFull b = [])
    (hdup : l.find? (fun s => jsToLower s.email == jsToLower (strVal b.email)) = none) :
    ∃ s : Student,
      create l b = (.created s, l ++ [s]) ∧
      s.id = maxId l + 1 ∧
      (∀ t ∈ l, t.id < s.id) ∧
      (l = [] → s.id = 1) ∧
      (l ≠ [] → (∀ t ∈ l, 0 ≤ t.id) → ∃ t ∈ l, s.id = t.id + 1 ∧ ∀ u ∈ l, u.id ≤ t.id) ∧
      s.name = strVal b.name ∧ s.age = numVal b.age ∧
      s.email = strVal b.email ∧ s.isActive = boolVal b.isActive := by
  refine ⟨{ id := maxId l + 1, name := strVal b.name, age := numVal b.age,
            email := strVal b.email, isActive := boolVal b.isActive },
    ?_, rfl, ?_, ?_, ?_, rfl, rfl, rfl, rfl⟩
  · simp [create, hv, hdup]
  · intro t ht
    have := maxId_ge l t ht
    simp only
    omega
  · intro hl
    subst hl
    simp [maxId]
  · intro hne hpos
    obtain ⟨t, ht, heq⟩ := maxId_attained l hne hpos
    refine ⟨t, ht, by simp only; omega, ?_⟩
    intro u hu
    have := maxId_ge l u hu
    omega

/-- Witness for C1 at the shipped store and a concrete valid payload. -/
theorem C1_witness :
    ∃ s : Student,
      create demoStore
          ⟨some (.str "David"), some (.num 21), some (.str "david@example.com"),
           some (.bool true)⟩ =
        (.created s, demoStore ++ [s]) ∧
      s.id = maxId demoStore + 1 ∧
      (∀ t ∈ demoStore, t.id < s.id) ∧
      (demoStore = [] → s.id = 1) ∧
      (demoStore ≠ [] → (∀ t ∈ demoStore, 0 ≤ t.id) →
        ∃ t ∈ demoStore, s.id = t.id + 1 ∧ ∀ u ∈ demoStore, u.id ≤ t.id) ∧
      s.name = strVal (some (.str "David")) ∧
      s.age = numVal (some (.num 21)) ∧
      s.email = strVal (some (.str "david@example.com")) ∧
      s.isActive = boolVal (some (.bool true)) :=
  C1_create_assigns_max_plus_one demoStore
    ⟨some (.str "David"), some (.num 21), some (.str "david@example.com"), some (.bool true)⟩
    (by decide) (by decide)

/-! ### C5 -/

/-- C5: full-create/full-replace validation checks the four fields in the
fixed order name, age, email, isActive; each violated rule (name non-empty
string, age a present number strictly greater than 0, email non-empty
string, isActive boolean) contributes its one message to a single ordered
list; and create (resp. replace on an existing id) rejects with 400 and
exactly that complete list precisely when the list is non-empty. -/
theorem C5_full_validation_collects_all (l : List Student) (b : Payload) :
    (validateFull b =
      (if nonEmptyStrB b.name then [] else ["name is required and must be a string"])
        ++ (if posNumB b.age then [] else ["age is required and must be a positive number"])
        ++ (if nonEmptyStrB b.email then [] else ["email is required and must be a string"])
        ++ (if boolPresentB b.isActive then []
            else ["isActive is required and must be a boolean"])) ∧
    (nonEmptyStrB b.name = true ↔ NameRule b) ∧
    (posNumB b.age = true ↔ AgeRule b) ∧
    (nonEmptyStrB b.email = true ↔ EmailRule b) ∧
    (boolPresentB b.isActive = true ↔ ActiveRule b) ∧
    ((create l b).1 = .badRequest (validateFull b) ↔ validateFull b ≠ []) ∧
    (validateFull b ≠ [] → (create l b).2 = l ∧ (create l b).1.status = 400) ∧
    (∀ id index, findIndex (fun s => s.id == id) l = some index →
      (((replace l id b).1 = .badRequest (validateFull b) ↔ validateFull b ≠ []) ∧
        (validateFull b ≠ [] → (replace l id b).2 = l ∧ (replace l id b).1.status = 400))) := by
  refine ⟨validateFull_eq_rules b, nonEmptyStrB_iff b.name, posNumB_iff b.age,
    nonEmptyStrB_iff b.email, boolPresentB_iff b.isActive, ?_, ?_, ?_⟩
  · by_cases hv : validateFull b = []
    · simp only [hv, ne_eq, not_true_eq_false, iff_false]
      cases hfind : l.find? (fun s => jsToLower s.email == jsToLower (strVal b.email)) with
      | none => simp [create, hv, hfind]
      | some e => simp [create, hv, hfind]
    · simp [create, hv]
  · intro hv
    simp [create, hv, CreateResult.status]
  · intro id index hfound
    constructor
    · by_cases hv : validateFull b = []
      · simp only [hv, ne_eq, not_true_eq_false, iff_false]
        cases hfind : l.find?
            (fun s => jsToLower s.email == jsToLower (strVal b.email) && s.id != id) with
        | none => simp [replace, hfound, hv, hfind]
        | some e => simp [replace, hfound, hv, hfind]
      · simp [replace, hfound, hv]
    · intro hv
      simp [replace, hfound, hv, UpdateResult.status]

/-- Witness for C5 at the shipped store and an all-invalid payload,
projected to the replace clause at the existing id 1 (index 0). -/
theorem C5_witness :
    ((replace demoStore 1 ⟨some (.str ""), some (.num 0), none, some .null⟩).1 =
        .badRequest (validateFull ⟨some (.str ""), some (.num 0), none, some .null⟩) ↔
      validateFull ⟨some (.str ""), some (.num 0), none, some .null⟩ ≠ []) ∧
    (validateFull ⟨some (.str ""), some (.num 0), none, some .null⟩ ≠ [] →
      (replace demoStore 1 ⟨some (.str ""), some (.num 0), none, some .null⟩).2 = demoStore ∧
      (replace demoStore 1 ⟨some (.str ""), some (.num 0), none, some .null⟩).1.status = 400) :=
  (C5_full_validation_collects_all demoStore
      ⟨some (.str ""), some (.num 0), none, some .null⟩).2.2.2.2.2.2.2 1 0 (by decide)

/-! ### C4 -/

/-- C4 counterexample: a present-but-empty Authorization header.  The header
is not absent and does not split into two space-separated parts, so the
claim predicts the 401 format error, but the guard's falsy check
(`!authHeader`) yields the missing-header error instead. -/
theorem C4_counterexample :
    (some "" ≠ (none : Option String)) ∧
    ((jsSplit ' ' "").length ≠ 2) ∧
    requireJwt demoVerify (some "") = .missingHeader ∧
    JwtOutcome.missingHeader ≠ JwtOutcome.badFormat := by decide

/-- C4 (amended): the bearer-token guard yields the 401 missing-header
error when the Authorization header is absent *or present but empty* (the
JS falsy check); for any other present header that does not split on
spaces into exactly two parts with first part `"Bearer"` it yields the 401
format error; otherwise it yields the 401 invalid/expired error exactly
when verification of the second part fails, and on verification success it
exposes the decoded payload.  The four outcomes are values of the four
distinct `JwtOutcome` constructors, the four guarding conditions cover all
inputs, and a failed guard leaves the store of the guarded create route
unchanged. -/
theorem C4_requireJwt_outcomes (verify : String → Except String AuthUser)
    (hdr : Option String) :
    ((hdr = none ∨ hdr = some "") → requireJwt verify hdr = .missingHeader) ∧
    (∀ h, hdr = some h → h ≠ "" →
      ¬ ((jsSplit ' ' h).length = 2 ∧ (jsSplit ' ' h).headD "" = "Bearer") →
      requireJwt verify hdr = .badFormat) ∧
    (∀ h, hdr = some h → h ≠ "" →
      (jsSplit ' ' h).length = 2 → (jsSplit ' ' h).headD "" = "Bearer" →
      ((∀ msg, verify ((jsSplit ' ' h).getD 1 "") = .error msg →
          requireJwt verify hdr = .invalidToken msg) ∧
        (∀ u, verify ((jsSplit ' ' h).getD 1 "") = .ok u →
          requireJwt verify hdr = .ok u))) ∧
    (∀ l b, (∀ u, requireJwt verify hdr ≠ .ok u) →
      (guardedCreate verify hdr l b).2 = l ∧
      (guardedCreate verify hdr l b).1 = .authFail (requireJwt verify hdr)) := by
  refine ⟨?_, ?_, ?_, ?_⟩
  · rintro (rfl | rfl)
    · simp [requireJwt]
    · simp [requireJwt]
  · rintro h rfl hne hbad
    have hcond : (jsSplit ' ' h).length ≠ 2 ∨ (jsSplit ' ' h).headD "" ≠ "Bearer" := by
      tauto
    simp only [requireJwt]
    rw [if_neg hne, if_pos hcond]
  · rintro h rfl hne hlen hbearer
    have hcond : ¬ ((jsSplit ' ' h).length ≠ 2 ∨ (jsSplit ' ' h).headD "" ≠ "Bearer") := by
      rintro (hc | hc)
      · exact hc hlen
      · exact hc hbearer
    constructor
    · intro msg hmsg
      simp only [requireJwt]
      rw [if_neg hne, if_neg hcond, hmsg]
    · intro u hu
      simp only [requireJwt]
      rw [if_neg hne, if_neg hcond, hu]
  · intro l b hfail
    cases hout : requireJwt verify hdr with
    | ok u => exact absurd hout (hfail u)
    | missingHeader => simp [guardedCreate, hout]
    | badFormat => simp [guardedCreate, hout]
    | invalidToken msg => simp [guardedCreate, hout]

/-- Witness for the amended C4: each outcome realized at a concrete input. -/
theorem C4_witness :
    requireJwt demoVerify (some "Basic abc") = .badFormat ∧
    requireJwt demoVerify none = .missingHeader ∧
    requireJwt demoVerify (some "Bearer bad") = .invalidToken "jwt malformed" ∧
    requireJwt demoVerify (some "Bearer good-token") = .ok ⟨"testuser", "student-admin"⟩ ∧
    (guardedCreate demoVerify none demoStore ⟨none, none, none, none⟩).2 = demoStore :=
  ⟨(C4_requireJwt_outcomes demoVerify (some "Basic abc")).2.1 "Basic abc" rfl
      (by decide) (by decide),
   (C4_requireJwt_outcomes demoVerify none).1 (Or.inl rfl),
   ((C4_requireJwt_outcomes demoVerify (some "Bearer bad")).2.2.1 "Bearer bad" rfl
      (by decide) (by decide) (by decide)).1 "jwt malformed" rfl,
   ((C4_requireJwt_outcomes demoVerify (some "Bearer good-token")).2.2.1 "Bearer good-token"
      rfl (by decide) (by decide) (by decide)).2 ⟨"testuser", "student-admin"⟩ rfl,
   ((C4_requireJwt_outcomes demoVerify none).2.2.2 demoStore ⟨none, none, none, none⟩
      (fun u h => JwtOutcome.noConfusion h)).1⟩

/-! ### C7 -/

/-- C7 counterexample: a present-but-empty session cookie.  Its value is
not equal to the fixed valid token, so the claim predicts the 401
invalid-session error, but the guard's falsy check (`!sessionId`) yields
the missing-cookie error instead. -/
theorem C7_counterexample :
    (some "" ≠ (none : Option String)) ∧
    ("" : String) ≠ "dummy-session-id" ∧
    requireCookieLogin (some "") = .missingCookie ∧
    CookieOutcome.missingCookie ≠ CookieOutcome.invalidSession := by decide

/-- C7 (amended): the cookie guard yields the 401 missing-cookie error when
the session cookie is absent *or present but empty* (the JS falsy check);
yields the 401 invalid-session error for any other present value different
from the single fixed valid token `"dummy-session-id"`; and on the fixed
token it accepts, injecting the fixed identity
`{username := "cookieUser", role := "cookie-tester"}` — the same identity
for every accepted request, independent of any login. -/
theorem C7_requireCookieLogin_outcomes (c : Option String) :
    ((c = none ∨ c = some "") → requireCookieLogin c = .missingCookie) ∧
    (∀ s, c = some s → s ≠ "" → s ≠ "dummy-session-id" →
      requireCookieLogin c = .invalidSession) ∧
    (c = some "dummy-session-id" →
      requireCookieLogin c = .ok ⟨"cookieUser", "cookie-tester"⟩) ∧
    (∀ u, requireCookieLogin c = .ok u → u = ⟨"cookieUser", "cookie-tester"⟩) := by
  refine ⟨?_, ?_, ?_, ?_⟩
  · rintro (rfl | rfl)
    · simp [requireCookieLogin]
    · simp [requireCookieLogin]
  · rintro s rfl hne hbad
    simp [requireCookieLogin, hne, hbad]
  · rintro rfl
    simp [requireCookieLogin]
  · intro u hu
    rcases c with _ | s
    · simp [requireCookieLogin] at hu
    · by_cases h0 : s = ""
      · subst h0; simp [requireCookieLogin] at hu
      · by_cases hd : s = "dummy-session-id"
        · subst hd
          simp [requireCookieLogin] at hu
          exact hu.symm
        · simp [requireCookieLogin, h0, hd] at hu

/-- Witness for the amended C7: each outcome realized at a concrete input. -/
theorem C7_witness :
    requireCookieLogin none = .missingCookie ∧
    requireCookieLogin (some "wrong") = .invalidSession ∧
    requireCookieLogin (some "dummy-session-id") = .ok ⟨"cookieUser", "cookie-tester"⟩ :=
  ⟨(C7_requireCookieLogin_outcomes none).1 (Or.inl rfl),
   (C7_requireCookieLogin_outcomes (some "wrong")).2.1 "wrong" rfl (by decide) (by decide),
   (C7_requireCookieLogin_outcomes (some "dummy-session-id")).2.2.1 rfl⟩

/-- After a passing name step and a passing age step, PATCH reaches the
email step with the target record's name/age updated and id/email intact. -/
theorem patch_to_email (l : List Student) (id : Int) (b : Payload) (i : Nat)
    (hf : findIndex (fun s => s.id == id) l = some i) (hi : i < l.length)
    (hn : b.name = none ∨ ∃ nm, b.name = some (.str nm))
    (ha : b.age = none ∨ ∃ n, b.age = some (.num n) ∧ 0 < n) :
    ∃ s2 : Student,
      patch l id b = patchEmail l i id s2 b ∧
      s2.id = l[i].id ∧ s2.email = l[i].email ∧ s2.isActive = l[i].isActive ∧
      (b.name = none → s2.name = l[i].name) ∧
      (∀ nm, b.name = some (.str nm) → s2.name = nm) ∧
      (b.age = none → s2.age = l[i].age) ∧
      (∀ n, b.age = some (.num n) → s2.age = n) := by
  rcases hn with hn | ⟨nm, hn⟩ <;> rcases ha with ha | ⟨n, ha, hpos⟩
  · refine ⟨l[i], ?_, rfl, rfl, rfl, fun _ => rfl, ?_, fun _ => rfl, ?_⟩
    · rw [patch_reduce l id b i hf hi, patchName_skip _ _ _ _ _ hn,
        patchAge_skip _ _ _ _ _ ha]
    · intro nm' h'
      rw [hn] at h'
      exact Option.noConfusion h'
    · intro n' h'
      rw [ha] at h'
      exact Option.noConfusion h'
  · refine ⟨{ l[i] with age := n }, ?_, rfl, rfl, rfl, fun _ => rfl, ?_, ?_, ?_⟩
    · rw [patch_reduce l id b i hf hi, patchName_skip _ _ _ _ _ hn,
        patchAge_num _ _ _ _ _ n ha hpos]
    · intro nm' h'
      rw [hn] at h'
      exact Option.noConfusion h'
    · intro h'
      rw [ha] at h'
      exact Option.noConfusion h'
    · intro n' h'
      rw [ha] at h'
      have : n = n' := by simpa using h'
      simpa using this
  · refine ⟨{ l[i] with name := nm }, ?_, rfl, rfl, rfl, ?_, ?_, fun _ => rfl, ?_⟩
    · rw [patch_reduce l id b i hf hi, patchName_str _ _ _ _ _ nm hn,
        patchAge_skip _ _ _ _ _ ha]
    · intro h'
      rw [hn] at h'
      exact Option.noConfusion h'
    · intro nm' h'
      rw [hn] at h'
      have : nm = nm' := by simpa using h'
      simpa using this
    · intro n' h'
      rw [ha] at h'
      exact Option.noConfusion h'
  · refine ⟨{ l[i] with name := nm, age := n }, ?_, rfl, rfl, rfl, ?_, ?_, ?_, ?_⟩
    · rw [patch_reduce l id b i hf hi, patchName_str _ _ _ _ _ nm hn,
        patchAge_num _ _ _ _ _ n ha hpos]
    · intro h'
      rw [hn] at h'
      exact Option.noConfusion h'
    · intro nm' h'
      rw [hn] at h'
      have : nm = nm' := by simpa using h'
      simpa using this
    · intro h'
      rw [ha] at h'
      exact Option.noConfusion h'
    · intro n' h'
      rw [ha] at h'
      have : n = n' := by simpa using h'
      simpa using this

/-! ### C8 -/

/-- C8: for every existing student id and a payload containing only a
valid age (`{"age": a}` with `0 < a`), PATCH succeeds with 200; in the
resulting store only that student's age differs — id, name, email and
isActive are untouched — and every other position of the store is
unchanged. -/
theorem C8_patch_age_only_frame (l : List Student) (id : Int) (i : Nat) (a : Int)
    (hf : findIndex (fun s => s.id == id) l = some i) (ha : 0 < a) :
    ∃ hi : i < l.length,
      patch l id ⟨none, some (.num a), none, none⟩ =
        (.updated { l[i] with age := a }, l.set i { l[i] with age := a }) ∧
      (patch l id ⟨none, some (.num a), none, none⟩).1.status = 200 ∧
      ({ l[i] with age := a }).id = l[i].id ∧
      ({ l[i] with age := a }).name = l[i].name ∧
      ({ l[i] with age := a }).email = l[i].email ∧
      ({ l[i] with age := a }).isActive = l[i].isActive ∧
      ({ l[i] with age := a }).age = a ∧
      (∀ j, j ≠ i → (patch l id ⟨none, some (.num a), none, none⟩).2[j]? = l[j]?) := by
  have hi := findIndex_some_lt hf
  have hmain : patch l id ⟨none, some (.num a), none, none⟩ =
      (.updated { l[i] with age := a }, l.set i { l[i] with age := a }) := by
    rw [patch_reduce l id _ i hf hi, patchName_skip _ _ _ _ _ rfl,
      patchAge_num _ _ _ _ _ a rfl ha, patchEmail_skip _ _ _ _ _ rfl,
      patchIsActive_skip _ _ _ _ rfl]
  refine ⟨hi, hmain, ?_, rfl, rfl, rfl, rfl, rfl, ?_⟩
  · rw [hmain]
    rfl
  · intro j hj
    rw [hmain]
    exact List.getElem?_set_ne (fun hc => hj hc.symm)

/-- Witness for C8: `PATCH /students/2` with body `{"age": 23}` on the
shipped store changes exactly Bob's age. -/
theorem C8_witness :
    patch demoStore 2 ⟨none, some (.num 23), none, none⟩ =
      (.updated ⟨2, "Bob Smith", 23, "bob@example.com", true⟩,
       [⟨1, "Alice Johnson", 20, "alice@example.com", true⟩,
        ⟨2, "Bob Smith", 23, "bob@example.com", true⟩,
        ⟨3, "Charlie Brown", 19, "charlie@example.com", false⟩]) := by
  obtain ⟨hi, hmain, hrest⟩ :=
    C8_patch_age_only_frame demoStore 2 1 23 (by decide) (by decide)
  exact hmain.trans rfl

/-! ### C6 -/

/-- C6 counterexample: PATCH with body `{"name": ""}` on an existing
student.  The claim's per-field rule demands non-empty text and therefore
a 400 rejection, but the handler checks only `typeof name !== "string"`,
so it succeeds with 200 and writes the empty name. -/
theorem C6_counterexample :
    patch demoStore 1 ⟨some (.str ""), none, none, none⟩ =
      (.updated ⟨1, "", 20, "alice@example.com", true⟩,
       [⟨1, "", 20, "alice@example.com", true⟩,
        ⟨2, "Bob Smith", 22, "bob@example.com", true⟩,
        ⟨3, "Charlie Brown", 19, "charlie@example.com", false⟩]) ∧
    (patch demoStore 1 ⟨some (.str ""), none, none, none⟩).1.status = 200 := by decide

/-- C6 (amended): PATCH validates each present field individually and
fails fast with 400 on the first invalid present field in the order name,
age, email, isActive; absent fields leave the target record's fields
untouched.  The per-field rules are weaker than full validation for the
text fields: `name` and `email` need only be strings (the empty string is
accepted), while `age` must be a number strictly greater than 0 and
`isActive` a boolean. -/
theorem C6_patch_per_field_validation (l : List Student) (id : Int) (b : Payload) (i : Nat)
    (hf : findIndex (fun s => s.id == id) l = some i) :
    ∃ hi : i < l.length,
      (∀ v, b.name = some v → (∀ nm, v ≠ .str nm) →
        patch l id b = (.badRequest invalidNameMsg, l)) ∧
      ((b.name = none ∨ (∃ nm, b.name = some (.str nm))) →
        ∀ v, b.age = some v → (∀ n, v = .num n → n ≤ 0) →
        (patch l id b).1 = .badRequest invalidAgeMsg) ∧
      ((b.name = none ∨ (∃ nm, b.name = some (.str nm))) →
        (b.age = none ∨ (∃ n, b.age = some (.num n) ∧ 0 < n)) →
        ∀ v, b.email = some v → (∀ em, v ≠ .str em) →
        (patch l id b).1 = .badRequest invalidEmailMsg) ∧
      ((b.name = none ∨ (∃ nm, b.name = some (.str nm))) →
        (b.age = none ∨ (∃ n, b.age = some (.num n) ∧ 0 < n)) →
        (b.email = none ∨ (∃ em, b.email = some (.str em))) →
        (∀ em, b.email = some (.str em) →
          ∀ t ∈ l, t.id ≠ id → jsToLower t.email ≠ jsToLower em) →
        ∀ v, b.isActive = some v → (∀ bv, v ≠ .bool bv) →
        (patch l id b).1 = .badRequest invalidActiveMsg) ∧
      ((b.name = none ∨ (∃ nm, b.name = some (.str nm))) →
        (b.age = none ∨ (∃ n, b.age = some (.num n) ∧ 0 < n)) →
        (b.email = none ∨ (∃ em, b.email = some (.str em))) →
        (∀ em, b.email = some (.str em) →
          ∀ t ∈ l, t.id ≠ id → jsToLower t.email ≠ jsToLower em) →
        (b.isActive = none ∨ (∃ bv, b.isActive = some (.bool bv))) →
        ∃ s' : Student,
          patch l id b = (.updated s', l.set i s') ∧
          s'.id = l[i].id ∧
          (b.name = none → s'.name = l[i].name) ∧
          (∀ nm, b.name = some (.str nm) → s'.name = nm) ∧
          (b.age = none → s'.age = l[i].age) ∧
          (∀ n, b.age = some (.num n) → s'.age = n) ∧
          (b.email = none → s'.email = l[i].email) ∧
          (∀ em, b.email = some (.str em) → s'.email = em) ∧
          (b.isActive = none → s'.isActive = l[i].isActive) ∧
          (∀ bv, b.isActive = some (.bool bv) → s'.isActive = bv)) := by
  have hi := findIndex_some_lt hf
  have hpid : l[i].id = id := by
    have := findIndex_some_prop hf hi
    simpa using this
  refine ⟨hi, ?_, ?_, ?_, ?_, ?_⟩
  · intro v hv hbad
    rw [patch_reduce l id b i hf hi, patchName_bad _ _ _ _ _ v hv hbad,
      set_getElem_self l i hi]
  · intro hn v hv hbad
    rcases hn with hn | ⟨nm, hn⟩
    · rw [patch_reduce l id b i hf hi, patchName_skip _ _ _ _ _ hn,
        patchAge_bad _ _ _ _ _ v hv hbad]
    · rw [patch_reduce l id b i hf hi, patchName_str _ _ _ _ _ nm hn,
        patchAge_bad _ _ _ _ _ v hv hbad]
  · intro hn ha v hv hbad
    obtain ⟨s2, hchain, hs2⟩ := patch_to_email l id b i hf hi hn ha
    rw [hchain, patchEmail_bad _ _ _ _ _ v hv hbad]
  · intro hn ha he hnodup v hv hbad
    obtain ⟨s2, hchain, hs2id, hs2mail, hs2⟩ := patch_to_email l id b i hf hi hn ha
    rcases he with he | ⟨em, he⟩
    · rw [hchain, patchEmail_skip _ _ _ _ _ he, patchIsActive_bad _ _ _ _ v hv hbad]
    · have hfind := find_dup_none_of l i hi s2 id em (hs2id.trans hpid) (hnodup em he)
      rw [hchain, patchEmail_str _ _ _ _ _ em he hfind,
        patchIsActive_bad _ _ _ _ v hv hbad]
  · intro hn ha he hnodup hb
    obtain ⟨s2, hchain, hs2id, hs2mail, hs2act, hs2n1, hs2n2, hs2a1, hs2a2⟩ :=
      patch_to_email l id b i hf hi hn ha
    rcases he with he | ⟨em, he⟩
    · rcases hb with hb | ⟨bv, hb⟩
      · refine ⟨s2, ?_, hs2id, hs2n1, hs2n2, hs2a1, hs2a2,
          fun _ => hs2mail, ?_, fun _ => hs2act, ?_⟩
        · rw [hchain, patchEmail_skip _ _ _ _ _ he, patchIsActive_skip _ _ _ _ hb]
        · intro em' h'
          rw [he] at h'
          exact Option.noConfusion h'
        · intro bv' h'
          rw [hb] at h'
          exact Option.noConfusion h'
      · refine ⟨{ s2 with isActive := bv }, ?_, hs2id, hs2n1, hs2n2, hs2a1, hs2a2,
          fun _ => hs2mail, ?_, ?_, ?_⟩
        · rw [hchain, patchEmail_skip _ _ _ _ _ he, patchIsActive_bool _ _ _ _ bv hb]
        · intro em' h'
          rw [he] at h'
          exact Option.noConfusion h'
        · intro h'
          rw [hb] at h'
          exact Option.noConfusion h'
        · intro bv' h'
          rw [hb] at h'
          have : bv = bv' := by simpa using h'
          simpa using this
    · have hfind := find_dup_none_of l i hi s2 id em (hs2id.trans hpid) (hnodup em he)
      rcases hb with hb | ⟨bv, hb⟩
      · refine ⟨{ s2 with email := em }, ?_, hs2id, hs2n1, hs2n2, hs2a1, hs2a2, ?_, ?_,
          fun _ => hs2act, ?_⟩
        · rw [hchain, patchEmail_str _ _ _ _ _ em he hfind, patchIsActive_skip _ _ _ _ hb]
        · intro h'
          rw [he] at h'
          exact Option.noConfusion h'
        · intro em' h'
          rw [he] at h'
          have : em = em' := by simpa using h'
          simpa using this
        · intro bv' h'
          rw [hb] at h'
          exact Option.noConfusion h'
      · refine ⟨{ s2 with email := em, isActive := bv }, ?_, hs2id, hs2n1, hs2n2,
          hs2a1, hs2a2, ?_, ?_, ?_, ?_⟩
        · rw [hchain, patchEmail_str _ _ _ _ _ em he hfind, patchIsActive_bool _ _ _ _ bv hb]
        · intro h'
          rw [he] at h'
          exact Option.noConfusion h'
        · intro em' h'
          rw [he] at h'
          have : em = em' := by simpa using h'
          simpa using this
        · intro h'
          rw [hb] at h'
          exact Option.noConfusion h'
        · intro bv' h'
          rw [hb] at h'
          have : bv = bv' := by simpa using h'
          simpa using this

/-- Witness for the amended C6: fail-fast on an invalid present field and
the merge semantics of a successful patch, at concrete inputs. -/
theorem C6_witness :
    (patch demoStore 1 ⟨some (.num 5), some (.str "x"), none, none⟩ =
      (.badRequest invalidNameMsg, demoStore)) ∧
    ((patch demoStore 1 ⟨some (.str "Alicia"), some (.num 0), none, none⟩).1 =
      .badRequest invalidAgeMsg) ∧
    (∃ s' : Student,
      patch demoStore 3 ⟨some (.str "Chuck"), none, some (.str "chuck@example.com"),
          some (.bool true)⟩ =
        (.updated s', demoStore.set 2 s')) := by
  obtain ⟨hi1, hc1, hc2, _⟩ :=
    C6_patch_per_field_validation demoStore 1 ⟨some (.num 5), some (.str "x"), none, none⟩ 0
      (by decide)
  obtain ⟨hi2, _, hc2b, _⟩ :=
    C6_patch_per_field_validation demoStore 1 ⟨some (.str "Alicia"), some (.num 0), none, none⟩
      0 (by decide)
  obtain ⟨hi3, _, _, _, _, hc5⟩ :=
    C6_patch_per_field_validation demoStore 3
      ⟨some (.str "Chuck"), none, some (.str "chuck@example.com"), some (.bool true)⟩ 2
      (by decide)
  refine ⟨hc1 (.num 5) rfl (fun nm h => JsValue.noConfusion h), ?_, ?_⟩
  · exact hc2b (Or.inr ⟨"Alicia", rfl⟩) (.num 0) rfl
      (fun n h => by cases h; omega)
  · obtain ⟨s', hmain, _⟩ := hc5 (Or.inr ⟨"Chuck", rfl⟩) (Or.inl rfl)
      (Or.inr ⟨"chuck@example.com", rfl⟩)
      (fun em h => by cases h; decide)
      (Or.inr ⟨true, rfl⟩)
    exact ⟨s', hmain⟩

/-! ### C10 -/

theorem applyName_id (b : Payload) (s : Student) : (applyName b s).id = s.id := by
  unfold applyName
  split <;> rfl

theorem applyName_email (b : Payload) (s : Student) : (applyName b s).email = s.email := by
  unfold applyName
  split <;> rfl

theorem applyAge_id (b : Payload) (s : Student) : (applyAge b s).id = s.id := by
  unfold applyAge
  split <;> rfl

theorem applyAge_email (b : Payload) (s : Student) : (applyAge b s).email = s.email := by
  unfold applyAge
  split <;> rfl

/-- After passing name and age steps, PATCH reaches the email step with
exactly the earlier present fields merged into the target record. -/
theorem patch_to_email_merge (l : List Student) (id : Int) (b : Payload) (i : Nat)
    (hf : findIndex (fun s => s.id == id) l = some i) (hi : i < l.length)
    (hn : b.name = none ∨ (∃ nm, b.name = some (.str nm)))
    (ha : b.age = none ∨ (∃ n, b.age = some (.num n) ∧ 0 < n)) :
    patch l id b = patchEmail l i id (applyAge b (applyName b l[i])) b := by
  rcases hn with hn | ⟨nm, hn⟩ <;> rcases ha with ha | ⟨n, ha, hpos⟩
  · rw [patch_reduce l id b i hf hi, patchName_skip _ _ _ _ _ hn,
      patchAge_skip _ _ _ _ _ ha]
    simp [applyName, applyAge, hn, ha]
  · rw [patch_reduce l id b i hf hi, patchName_skip _ _ _ _ _ hn,
      patchAge_num _ _ _ _ _ n ha hpos]
    simp [applyName, applyAge, hn, ha]
  · rw [patch_reduce l id b i hf hi, patchName_str _ _ _ _ _ nm hn,
      patchAge_skip _ _ _ _ _ ha]
    simp [applyName, applyAge, hn, ha]
  · rw [patch_reduce l id b i hf hi, patchName_str _ _ _ _ _ nm hn,
      patchAge_num _ _ _ _ _ n ha hpos]
    simp [applyName, applyAge, hn, ha]

/-- C10: PATCH is not atomic on validation failure.  Fields are written to
the stored record one at a time in the order name, age, email, isActive.
For every payload, whichever step fails first — a non-string name, a
non-positive or non-number age, a non-string email, a duplicated email, or
a non-boolean isActive — the handler returns the corresponding 400/409
error while every earlier-ordered present (hence valid) field has already
been written to the record in the store: the resulting store is exactly
the original with the merged prefix written at the target index.  (The
skipped file write is outside the in-memory model.) -/
theorem C10_patch_partial_mutation_on_error (l : List Student) (id : Int) (b : Payload)
    (i : Nat) (hf : findIndex (fun s => s.id == id) l = some i) :
    ∃ hi : i < l.length,
      (∀ v, b.name = some v → (∀ nm, v ≠ .str nm) →
        patch l id b = (.badRequest invalidNameMsg, l)) ∧
      ((b.name = none ∨ (∃ nm, b.name = some (.str nm))) →
        ∀ v, b.age = some v → (∀ n, v = .num n → n ≤ 0) →
        patch l id b = (.badRequest invalidAgeMsg, l.set i (applyName b l[i]))) ∧
      ((b.name = none ∨ (∃ nm, b.name = some (.str nm))) →
        (b.age = none ∨ (∃ n, b.age = some (.num n) ∧ 0 < n)) →
        ∀ v, b.email = some v → (∀ em, v ≠ .str em) →
        patch l id b =
          (.badRequest invalidEmailMsg, l.set i (applyAge b (applyName b l[i])))) ∧
      ((b.name = none ∨ (∃ nm, b.name = some (.str nm))) →
        (b.age = none ∨ (∃ n, b.age = some (.num n) ∧ 0 < n)) →
        ∀ em, b.email = some (.str em) →
        (∃ t ∈ l, t.id ≠ id ∧ jsToLower t.email = jsToLower em) →
        ∃ e, patch l id b = (.conflict e, l.set i (applyAge b (applyName b l[i]))) ∧
          e ∈ l ∧ e.id ≠ id ∧ jsToLower e.email = jsToLower em) ∧
      ((b.name = none ∨ (∃ nm, b.name = some (.str nm))) →
        (b.age = none ∨ (∃ n, b.age = some (.num n) ∧ 0 < n)) →
        (b.email = none ∨ (∃ em, b.email = some (.str em))) →
        (∀ em, b.email = some (.str em) →
          ∀ t ∈ l, t.id ≠ id → jsToLower t.email ≠ jsToLower em) →
        ∀ v, b.isActive = some v → (∀ bv, v ≠ .bool bv) →
        patch l id b = (.badRequest invalidActiveMsg,
          l.set i (applyEmail b (applyAge b (applyName b l[i]))))) := by
  have hi := findIndex_some_lt hf
  have hpid : l[i].id = id := by
    have := findIndex_some_prop hf hi
    simpa using this
  refine ⟨hi, ?_, ?_, ?_, ?_, ?_⟩
  · intro v hv hbad
    rw [patch_reduce l id b i hf hi, patchName_bad _ _ _ _ _ v hv hbad,
      set_getElem_self l i hi]
  · intro hn v hv hbad
    rcases hn with hn | ⟨nm, hn⟩
    · have happ : applyName b l[i] = l[i] := by simp [applyName, hn]
      rw [happ, patch_reduce l id b i hf hi, patchName_skip _ _ _ _ _ hn,
        patchAge_bad _ _ _ _ _ v hv hbad]
    · have happ : applyName b l[i] = { l[i] with name := nm } := by simp [applyName, hn]
      rw [happ, patch_reduce l id b i hf hi, patchName_str _ _ _ _ _ nm hn,
        patchAge_bad _ _ _ _ _ v hv hbad]
  · intro hn ha v hv hbad
    rw [patch_to_email_merge l id b i hf hi hn ha, patchEmail_bad _ _ _ _ _ v hv hbad]
  · intro hn ha em he hdup
    have hs2id : (applyAge b (applyName b l[i])).id = id := by
      rw [applyAge_id, applyName_id]
      exact hpid
    obtain ⟨e, hfind, hemem, heid, hemail⟩ :=
      find_dup_some_of l i hi (applyAge b (applyName b l[i])) id em hs2id hpid hdup
    refine ⟨e, ?_, hemem, heid, hemail⟩
    rw [patch_to_email_merge l id b i hf hi hn ha,
      patchEmail_conflict _ _ _ _ _ em e he hfind]
  · intro hn ha he hnodup v hv hbad
    have hs2id : (applyAge b (applyName b l[i])).id = id := by
      rw [applyAge_id, applyName_id]
      exact hpid
    rcases he with he | ⟨em, he⟩
    · have happ : applyEmail b (applyAge b (applyName b l[i]))
          = applyAge b (applyName b l[i]) := by
        simp [applyEmail, he]
      rw [happ, patch_to_email_merge l id b i hf hi hn ha,
        patchEmail_skip _ _ _ _ _ he, patchIsActive_bad _ _ _ _ v hv hbad]
    · have hfind := find_dup_none_of l i hi (applyAge b (applyName b l[i])) id em hs2id
        (hnodup em he)
      have happ : applyEmail b (applyAge b (applyName b l[i]))
          = { applyAge b (applyName b l[i]) with email := em } := by
        simp [applyEmail, he]
      rw [happ, patch_to_email_merge l id b i hf hi hn ha,
        patchEmail_str _ _ _ _ _ em he hfind, patchIsActive_bad _ _ _ _ v hv hbad]

/-- Witness for C10: five concrete non-atomic failures on the shipped
store at id 2 — a string age after a valid name, a duplicate email after
valid name and age, a numeric email after valid name and age, a numeric
email after a valid age with the name absent, and a null isActive after
valid name, age and email. -/
theorem C10_witness :
    (patch demoStore 2 ⟨some (.str "Bobby"), some (.str "oops"), none, none⟩ =
      (.badRequest invalidAgeMsg,
       [⟨1, "Alice Johnson", 20, "alice@example.com", true⟩,
        ⟨2, "Bobby", 22, "bob@example.com", true⟩,
        ⟨3, "Charlie Brown", 19, "charlie@example.com", false⟩])) ∧
    (∃ e, patch demoStore 2
        ⟨some (.str "Bobby"), some (.num 30), some (.str "Alice@Example.com"), none⟩ =
      (.conflict e,
       [⟨1, "Alice Johnson", 20, "alice@example.com", true⟩,
        ⟨2, "Bobby", 30, "bob@example.com", true⟩,
        ⟨3, "Charlie Brown", 19, "charlie@example.com", false⟩])) ∧
    (patch demoStore 2 ⟨some (.str "x"), some (.num 30), some (.num 5), none⟩ =
      (.badRequest invalidEmailMsg,
       [⟨1, "Alice Johnson", 20, "alice@example.com", true⟩,
        ⟨2, "x", 30, "bob@example.com", true⟩,
        ⟨3, "Charlie Brown", 19, "charlie@example.com", false⟩])) ∧
    (patch demoStore 2 ⟨none, some (.num 30), some (.num 5), none⟩ =
      (.badRequest invalidEmailMsg,
       [⟨1, "Alice Johnson", 20, "alice@example.com", true⟩,
        ⟨2, "Bob Smith", 30, "bob@example.com", true⟩,
        ⟨3, "Charlie Brown", 19, "charlie@example.com", false⟩])) ∧
    (patch demoStore 2
        ⟨some (.str "Bobby"), some (.num 30), some (.str "bobby@example.com"), some .null⟩ =
      (.badRequest invalidActiveMsg,
       [⟨1, "Alice Johnson", 20, "alice@example.com", true⟩,
        ⟨2, "Bobby", 30, "bobby@example.com", true⟩,
        ⟨3, "Charlie Brown", 19, "charlie@example.com", false⟩])) := by
  obtain ⟨hiA, _, hA, _, _, _⟩ := C10_patch_partial_mutation_on_error demoStore 2
    ⟨some (.str "Bobby"), some (.str "oops"), none, none⟩ 1 (by decide)
  obtain ⟨hiB, _, _, _, hB, _⟩ := C10_patch_partial_mutation_on_error demoStore 2
    ⟨some (.str "Bobby"), some (.num 30), some (.str "Alice@Example.com"), none⟩ 1
    (by decide)
  obtain ⟨hiC, _, _, hC, _, _⟩ := C10_patch_partial_mutation_on_error demoStore 2
    ⟨some (.str "x"), some (.num 30), some (.num 5), none⟩ 1 (by decide)
  obtain ⟨hiD, _, _, hD, _, _⟩ := C10_patch_partial_mutation_on_error demoStore 2
    ⟨none, some (.num 30), some (.num 5), none⟩ 1 (by decide)
  obtain ⟨hiE, _, _, _, _, hE⟩ := C10_patch_partial_mutation_on_error demoStore 2
    ⟨some (.str "Bobby"), some (.num 30), some (.str "bobby@example.com"), some .null⟩ 1
    (by decide)
  refine ⟨?_, ?_, ?_, ?_, ?_⟩
  · exact (hA (Or.inr ⟨"Bobby", rfl⟩) (.str "oops") rfl
      (fun n h => JsValue.noConfusion h)).trans rfl
  · obtain ⟨e, heq, _⟩ := hB (Or.inr ⟨"Bobby", rfl⟩) (Or.inr ⟨30, rfl, by decide⟩)
      "Alice@Example.com" rfl (by decide)
    exact ⟨e, heq.trans rfl⟩
  · exact (hC (Or.inr ⟨"x", rfl⟩) (Or.inr ⟨30, rfl, by decide⟩) (.num 5) rfl
      (fun em h => JsValue.noConfusion h)).trans rfl
  · exact (hD (Or.inl rfl) (Or.inr ⟨30, rfl, by decide⟩) (.num 5) rfl
      (fun em h => JsValue.noConfusion h)).trans rfl
  · exact (hE (Or.inr ⟨"Bobby", rfl⟩) (Or.inr ⟨30, rfl, by decide⟩)
      (Or.inr ⟨"bobby@example.com", rfl⟩) (fun em hem => by cases hem; decide) .null rfl
      (fun bv h => JsValue.noConfusion h)).trans rfl

/-! ### C3 -/

theorem patchIsActive_no_conflict (l : List Student) (i : Nat) (s : Student) (b : Payload) :
    ∀ e, (patchIsActive l i s b).1 ≠ .conflict e := by
  intro e
  rcases hb : b.isActive with _ | v
  · simp [patchIsActive, hb]
  · cases v <;> simp [patchIsActive, hb]

theorem patchAge_no_conflict (l : List Student) (i : Nat) (id : Int) (s : Student)
    (b : Payload) (he : b.email = none) : ∀ e, (patchAge l i id s b).1 ≠ .conflict e := by
  intro e
  rcases ha : b.age with _ | v
  · rw [patchAge_skip _ _ _ _ _ ha, patchEmail_skip _ _ _ _ _ he]
    exact patchIsActive_no_conflict l i s b e
  · cases v with
    | num n =>
      by_cases hn : 0 < n
      · rw [patchAge_num _ _ _ _ _ n ha hn, patchEmail_skip _ _ _ _ _ he]
        exact patchIsActive_no_conflict l i _ b e
      · have : n ≤ 0 := by omega
        simp [patchAge, ha, this]
    | str s' => simp [patchAge, ha]
    | bool bv => simp [patchAge, ha]
    | null => simp [patchAge, ha]
    | obj => simp [patchAge, ha]

theorem patchName_no_conflict (l : List Student) (i : Nat) (id : Int) (s : Student)
    (b : Payload) (he : b.email = none) : ∀ e, (patchName l i id s b).1 ≠ .conflict e := by
  intro e
  rcases hn : b.name with _ | v
  · rw [patchName_skip _ _ _ _ _ hn]
    exact patchAge_no_conflict l i id s b he e
  · cases v with
    | str nm =>
      rw [patchName_str _ _ _ _ _ nm hn]
      exact patchAge_no_conflict l i id _ b he e
    | num n => simp [patchName, hn]
    | bool bv => simp [patchName, hn]
    | null => simp [patchName, hn]
    | obj => simp [patchName, hn]

/-- C3: duplicate-email detection.  With a payload passing full
validation, create returns 409 (with the first conflicting record, the
store unchanged) exactly when some existing record's email matches the
payload email case-insensitively; replace of an existing id returns 409
exactly when some record with a *different* id matches; patch applies the
same different-id rule, and only when the email field is present in the
payload (with any earlier present fields passing their checks). -/
theorem C3_duplicate_email_conflicts (l : List Student) (id : Int) (b : Payload) :
    (validateFull b = [] →
      (((∃ e, (create l b).1 = .conflict e) ↔
          ∃ t ∈ l, jsToLower t.email = jsToLower (strVal b.email)) ∧
        (∀ e, (create l b).1 = .conflict e →
          e ∈ l ∧ jsToLower e.email = jsToLower (strVal b.email) ∧
          (create l b).2 = l ∧ (create l b).1.status = 409))) ∧
    (validateFull b = [] → ∀ i, findIndex (fun s => s.id == id) l = some i →
      (((∃ e, (replace l id b).1 = .conflict e) ↔
          ∃ t ∈ l, t.id ≠ id ∧ jsToLower t.email = jsToLower (strVal b.email)) ∧
        (∀ e, (replace l id b).1 = .conflict e →
          e ∈ l ∧ e.id ≠ id ∧ jsToLower e.email = jsToLower (strVal b.email) ∧
          (replace l id b).2 = l))) ∧
    (∀ i, findIndex (fun s => s.id == id) l = some i →
      ((b.email = none → ∀ e, (patch l id b).1 ≠ .conflict e) ∧
        ((b.name = none ∨ (∃ nm, b.name = some (.str nm))) →
          (b.age = none ∨ (∃ n, b.age = some (.num n) ∧ 0 < n)) →
          ∀ em, b.email = some (.str em) →
          ((∃ e, (patch l id b).1 = .conflict e) ↔
            ∃ t ∈ l, t.id ≠ id ∧ jsToLower t.email = jsToLower em)))) := by
  refine ⟨?_, ?_, ?_⟩
  · intro hv
    constructor
    · constructor
      · rintro ⟨e, he⟩
        cases hfind : l.find? (fun s => jsToLower s.email == jsToLower (strVal b.email)) with
        | none => simp [create, hv, hfind] at he
        | some e' =>
          have hp := List.find?_some hfind
          simp only [beq_iff_eq] at hp
          exact ⟨e', List.mem_of_find?_eq_some hfind, hp⟩
      · rintro ⟨t, ht, hmail⟩
        have hsome : (l.find? (fun s => jsToLower s.email == jsToLower (strVal b.email))).isSome := by
          rw [List.find?_isSome]
          exact ⟨t, ht, by simp [hmail]⟩
        cases hfind : l.find? (fun s => jsToLower s.email == jsToLower (strVal b.email)) with
        | none => rw [hfind] at hsome; simp at hsome
        | some e => exact ⟨e, by simp [create, hv, hfind]⟩
    · intro e he
      cases hfind : l.find? (fun s => jsToLower s.email == jsToLower (strVal b.email)) with
      | none => simp [create, hv, hfind] at he
      | some e' =>
        have : e' = e := by simpa [create, hv, hfind] using he
        subst this
        have hp := List.find?_some hfind
        simp only [beq_iff_eq] at hp
        exact ⟨List.mem_of_find?_eq_some hfind, hp, by simp [create, hv, hfind],
          by simp [create, hv, hfind, CreateResult.status]⟩
  · intro hv i hfi
    constructor
    · constructor
      · rintro ⟨e, he⟩
        cases hfind : l.find?
            (fun s => jsToLower s.email == jsToLower (strVal b.email) && s.id != id) with
        | none => simp [replace, hfi, hv, hfind] at he
        | some e' =>
          have hp := List.find?_some hfind
          simp only [Bool.and_eq_true, beq_iff_eq, bne_iff_ne, ne_eq] at hp
          exact ⟨e', List.mem_of_find?_eq_some hfind, hp.2, hp.1⟩
      · rintro ⟨t, ht, htid, hmail⟩
        have hsome : (l.find?
            (fun s => jsToLower s.email == jsToLower (strVal b.email) && s.id != id)).isSome := by
          rw [List.find?_isSome]
          exact ⟨t, ht, by simp [hmail, htid]⟩
        cases hfind : l.find?
            (fun s => jsToLower s.email == jsToLower (strVal b.email) && s.id != id) with
        | none => rw [hfind] at hsome; simp at hsome
        | some e => exact ⟨e, by simp [replace, hfi, hv, hfind]⟩
    · intro e he
      cases hfind : l.find?
          (fun s => jsToLower s.email == jsToLower (strVal b.email) && s.id != id) with
      | none => simp [replace, hfi, hv, hfind] at he
      | some e' =>
        have : e' = e := by simpa [replace, hfi, hv, hfind] using he
        subst this
        have hp := List.find?_some hfind
        simp only [Bool.and_eq_true, beq_iff_eq, bne_iff_ne, ne_eq] at hp
        exact ⟨List.mem_of_find?_eq_some hfind, hp.2, hp.1, by simp [replace, hfi, hv, hfind]⟩
  · intro i hfi
    have hi := findIndex_some_lt hfi
    have hpid : l[i].id = id := by
      have := findIndex_some_prop hfi hi
      simpa using this
    constructor
    · intro he e
      rw [patch_reduce l id b i hfi hi]
      exact patchName_no_conflict l i id _ b he e
    · intro hn ha em he
      obtain ⟨s2, hchain, hs2id, hs2mail, hs2rest⟩ := patch_to_email l id b i hfi hi hn ha
      constructor
      · rintro ⟨e, hconf⟩
        cases hfind : (l.set i s2).find?
            (fun t => jsToLower t.email == jsToLower em && t.id != id) with
        | none =>
          rw [hchain, patchEmail_str _ _ _ _ _ em he hfind] at hconf
          exact absurd hconf (patchIsActive_no_conflict l i _ b e)
        | some e' =>
          have hp := List.find?_some hfind
          simp only [Bool.and_eq_true, beq_iff_eq, bne_iff_ne, ne_eq] at hp
          have hmem := List.mem_of_find?_eq_some hfind
          rcases (mem_set_iff l i s2 hi e').mp hmem with rfl | ⟨j, hj, hne, rfl⟩
          · exact absurd (hs2id.trans hpid) hp.2
          · exact ⟨l[j], List.getElem_mem hj, hp.2, hp.1⟩
      · intro hdup
        obtain ⟨e, hfind, _⟩ :=
          find_dup_some_of l i hi s2 id em (hs2id.trans hpid) hpid hdup
        refine ⟨e, ?_⟩
        rw [hchain, patchEmail_conflict _ _ _ _ _ em e he hfind]

/-- Witness for C3: a case-differing duplicate email makes create and
replace conflict on the shipped store; an email-less patch never
conflicts; a patch carrying a case-differing duplicate email conflicts. -/
theorem C3_witness :
    (∃ e, (create demoStore
      ⟨some (.str "Dana"), some (.num 30), some (.str "ALICE@EXAMPLE.COM"),
       some (.bool true)⟩).1 = .conflict e) ∧
    (∃ e, (replace demoStore 2
      ⟨some (.str "Dana"), some (.num 30), some (.str "Charlie@example.com"),
       some (.bool true)⟩).1 = .conflict e) ∧
    (∀ e, (patch demoStore 2 ⟨none, some (.num 44), none, none⟩).1 ≠ .conflict e) ∧
    (∃ e, (patch demoStore 2 ⟨none, none, some (.str "Alice@example.COM"), none⟩).1 =
      .conflict e) := by
  refine ⟨?_, ?_, ?_, ?_⟩
  · exact ((C3_duplicate_email_conflicts demoStore 0
      ⟨some (.str "Dana"), some (.num 30), some (.str "ALICE@EXAMPLE.COM"),
       some (.bool true)⟩).1 (by decide)).1.mpr (by decide)
  · exact (((C3_duplicate_email_conflicts demoStore 2
      ⟨some (.str "Dana"), some (.num 30), some (.str "Charlie@example.com"),
       some (.bool true)⟩).2.1 (by decide) 1 (by decide)).1).mpr (by decide)
  · exact (((C3_duplicate_email_conflicts demoStore 2
      ⟨none, some (.num 44), none, none⟩).2.2 1 (by decide)).1) rfl
  · exact (((C3_duplicate_email_conflicts demoStore 2
      ⟨none, none, some (.str "Alice@example.COM"), none⟩).2.2 1 (by decide)).2
      (Or.inl rfl) (Or.inl rfl) "Alice@example.COM" rfl).mpr (by decide)

/-! ### C9 -/

/-- C9: idempotence of full replace.  For an existing id and a body that
passes full validation and the duplicate-email check, performing the
replace twice in succession returns the same record both times and leaves
the same final store as performing it once. -/
theorem C9_replace_idempotent (l : List Student) (id : Int) (b : Payload) (i : Nat)
    (hfi : findIndex (fun s => s.id == id) l = some i)
    (hv : validateFull b = [])
    (hdup : l.find? (fun s => jsToLower s.email == jsToLower (strVal b.email) && s.id != id)
      = none) :
    ∃ u : Student,
      replace l id b = (.updated u, l.set i u) ∧
      replace (l.set i u) id b = (.updated u, l.set i u) := by
  have hi := findIndex_some_lt hfi
  refine ⟨⟨id, strVal b.name, numVal b.age, strVal b.email, boolVal b.isActive⟩, ?_, ?_⟩
  · simp [replace, hfi, hv, hdup]
  · have hfi2 : findIndex (fun s => s.id == id)
        (l.set i ⟨id, strVal b.name, numVal b.age, strVal b.email, boolVal b.isActive⟩)
        = some i := by
      apply findIndex_eq_some_of (by simpa using hi)
      · have hset : (l.set i
            ⟨id, strVal b.name, numVal b.age, strVal b.email, boolVal b.isActive⟩).get
              ⟨i, by simpa using hi⟩ =
            ⟨id, strVal b.name, numVal b.age, strVal b.email, boolVal b.isActive⟩ := by
          simp [List.get_eq_getElem, List.getElem_set]
        rw [hset]
        simp
      · intro j hj hji
        have hjl : j < l.length := by simpa using hj
        have hij : ¬ (i = j) := by omega
        have hset : (l.set i
            ⟨id, strVal b.name, numVal b.age, strVal b.email, boolVal b.isActive⟩).get
              ⟨j, hj⟩ = l.get ⟨j, hjl⟩ := by
          simp [List.get_eq_getElem, List.getElem_set, hij]
        rw [hset]
        exact findIndex_some_min hfi j hjl hji
    have hdup2 : (l.set i
        ⟨id, strVal b.name, numVal b.age, strVal b.email, boolVal b.isActive⟩).find?
          (fun s => jsToLower s.email == jsToLower (strVal b.email) && s.id != id) = none := by
      rw [List.find?_eq_none]
      intro t ht
      rcases (mem_set_iff l i _ hi t).mp ht with rfl | ⟨j, hj, hne, rfl⟩
      · simp
      · have := List.find?_eq_none.mp hdup l[j] (List.getElem_mem hj)
        simpa using this
    simp [replace, hfi2, hv, hdup2, List.set_set]

/-- Witness for C9 on the shipped store: replacing student 2 twice with
the same valid body is idempotent. -/
theorem C9_witness :
    ∃ u : Student,
      replace demoStore 2
          ⟨some (.str "Bobby"), some (.num 25), some (.str "bobby@example.com"),
           some (.bool false)⟩ = (.updated u, demoStore.set 1 u) ∧
      replace (demoStore.set 1 u) 2
          ⟨some (.str "Bobby"), some (.num 25), some (.str "bobby@example.com"),
           some (.bool false)⟩ = (.updated u, demoStore.set 1 u) :=
  C9_replace_idempotent demoStore 2
    ⟨some (.str "Bobby"), some (.num 25), some (.str "bobby@example.com"),
     some (.bool false)⟩ 1 (by decide) (by decide) (by decide)

/-! ### C2 -/

theorem patchIsActive_inv (l : List Student) (i : Nat) (hi : i < l.length) (s : Student)
    (b : Payload) (hid : s.id = l[i].id)
    (hem : ∀ j (hj : j < l.length), j ≠ i → jsToLower s.email ≠ jsToLower l[j].email)
    (h : StoreInv l) : StoreInv (patchIsActive l i s b).2 := by
  rcases hb : b.isActive with _ | v
  · rw [patchIsActive_skip _ _ _ _ hb]
    exact storeInv_set l i hi s hid hem h
  · cases v with
    | bool bv =>
      rw [patchIsActive_bool _ _ _ _ bv hb]
      exact storeInv_set l i hi _ hid hem h
    | str s' =>
      rw [patchIsActive_bad _ _ _ _ _ hb (fun bv h' => JsValue.noConfusion h')]
      exact storeInv_set l i hi s hid hem h
    | num n =>
      rw [patchIsActive_bad _ _ _ _ _ hb (fun bv h' => JsValue.noConfusion h')]
      exact storeInv_set l i hi s hid hem h
    | null =>
      rw [patchIsActive_bad _ _ _ _ _ hb (fun bv h' => JsValue.noConfusion h')]
      exact storeInv_set l i hi s hid hem h
    | obj =>
      rw [patchIsActive_bad _ _ _ _ _ hb (fun bv h' => JsValue.noConfusion h')]
      exact storeInv_set l i hi s hid hem h

theorem patchEmail_inv (l : List Student) (i : Nat) (id : Int) (hi : i < l.length)
    (s : Student) (b : Payload) (hpid : l[i].id = id) (hid : s.id = l[i].id)
    (hem : ∀ j (hj : j < l.length), j ≠ i → jsToLower s.email ≠ jsToLower l[j].email)
    (h : StoreInv l) : StoreInv (patchEmail l i id s b).2 := by
  rcases he : b.email with _ | v
  · rw [patchEmail_skip _ _ _ _ _ he]
    exact patchIsActive_inv l i hi s b hid hem h
  · cases v with
    | str em =>
      cases hfind : (l.set i s).find?
          (fun t => jsToLower t.email == jsToLower em && t.id != id) with
      | some e =>
        rw [patchEmail_conflict _ _ _ _ _ em e he hfind]
        exact storeInv_set l i hi s hid hem h
      | none =>
        rw [patchEmail_str _ _ _ _ _ em he hfind]
        apply patchIsActive_inv l i hi { s with email := em } b hid ?_ h
        intro j hj hne
        have hall := List.find?_eq_none.mp hfind
        have hmem : l[j] ∈ l.set i s :=
          (mem_set_iff l i s hi _).mpr (Or.inr ⟨j, hj, hne, rfl⟩)
        have hnp := hall _ hmem
        have hjid : l[j].id ≠ id := by
          have hne' := pairwise_ne_getElem (fun a b hab => fun hc => hab hc.symm) h.2
            i j hi hj (fun hc => hne hc.symm)
          exact fun hc => hne' (hpid.trans hc.symm)
        intro hc
        apply hnp
        simp [hc.symm, hjid]
    | num n =>
      rw [patchEmail_bad _ _ _ _ _ _ he (fun em h' => JsValue.noConfusion h')]
      exact storeInv_set l i hi s hid hem h
    | bool bv =>
      rw [patchEmail_bad _ _ _ _ _ _ he (fun em h' => JsValue.noConfusion h')]
      exact storeInv_set l i hi s hid hem h
    | null =>
      rw [patchEmail_bad _ _ _ _ _ _ he (fun em h' => JsValue.noConfusion h')]
      exact storeInv_set l i hi s hid hem h
    | obj =>
      rw [patchEmail_bad _ _ _ _ _ _ he (fun em h' => JsValue.noConfusion h')]
      exact storeInv_set l i hi s hid hem h

theorem patchAge_inv (l : List Student) (i : Nat) (id : Int) (hi : i < l.length)
    (s : Student) (b : Payload) (hpid : l[i].id = id) (hid : s.id = l[i].id)
    (hem : ∀ j (hj : j < l.length), j ≠ i → jsToLower s.email ≠ jsToLower l[j].email)
    (h : StoreInv l) : StoreInv (patchAge l i id s b).2 := by
  rcases ha : b.age with _ | v
  · rw [patchAge_skip _ _ _ _ _ ha]
    exact patchEmail_inv l i id hi s b hpid hid hem h
  · cases v with
    | num n =>
      by_cases hn : 0 < n
      · rw [patchAge_num _ _ _ _ _ n ha hn]
        exact patchEmail_inv l i id hi _ b hpid hid hem h
      · rw [patchAge_bad _ _ _ _ _ _ ha (fun n' h' => by cases h'; omega)]
        exact storeInv_set l i hi s hid hem h
    | str s' =>
      rw [patchAge_bad _ _ _ _ _ _ ha (fun n' h' => JsValue.noConfusion h')]
      exact storeInv_set l i hi s hid hem h
    | bool bv =>
      rw [patchAge_bad _ _ _ _ _ _ ha (fun n' h' => JsValue.noConfusion h')]
      exact storeInv_set l i hi s hid hem h
    | null =>
      rw [patchAge_bad _ _ _ _ _ _ ha (fun n' h' => JsValue.noConfusion h')]
      exact storeInv_set l i hi s hid hem h
    | obj =>
      rw [patchAge_bad _ _ _ _ _ _ ha (fun n' h' => JsValue.noConfusion h')]
      exact storeInv_set l i hi s hid hem h

theorem patchName_inv (l : List Student) (i : Nat) (id : Int) (hi : i < l.length)
    (s : Student) (b : Payload) (hpid : l[i].id = id) (hid : s.id = l[i].id)
    (hem : ∀ j (hj : j < l.length), j ≠ i → jsToLower s.email ≠ jsToLower l[j].email)
    (h : StoreInv l) : StoreInv (patchName l i id s b).2 := by
  rcases hn : b.name with _ | v
  · rw [patchName_skip _ _ _ _ _ hn]
    exact patchAge_inv l i id hi s b hpid hid hem h
  · cases v with
    | str nm =>
      rw [patchName_str _ _ _ _ _ nm hn]
      exact patchAge_inv l i id hi _ b hpid hid hem h
    | num n =>
      rw [patchName_bad _ _ _ _ _ _ hn (fun nm h' => JsValue.noConfusion h')]
      exact storeInv_set l i hi s hid hem h
    | bool bv =>
      rw [patchName_bad _ _ _ _ _ _ hn (fun nm h' => JsValue.noConfusion h')]
      exact storeInv_set l i hi s hid hem h
    | null =>
      rw [patchName_bad _ _ _ _ _ _ hn (fun nm h' => JsValue.noConfusion h')]
      exact storeInv_set l i hi s hid hem h
    | obj =>
      rw [patchName_bad _ _ _ _ _ _ hn (fun nm h' => JsValue.noConfusion h')]
      exact storeInv_set l i hi s hid hem h

theorem patch_inv (l : List Student) (id : Int) (b : Payload) (h : StoreInv l) :
    StoreInv (patch l id b).2 := by
  cases hfi : findIndex (fun s => s.id == id) l with
  | none => simpa [patch, hfi] using h
  | some i =>
    have hi := findIndex_some_lt hfi
    have hpid : l[i].id = id := by
      have := findIndex_some_prop hfi hi
      simpa using this
    rw [patch_reduce l id b i hfi hi]
    apply patchName_inv l i id hi l[i] b hpid rfl ?_ h
    intro j hj hne
    exact pairwise_ne_getElem (fun a b hab => fun hc => hab hc.symm) h.1 i j hi hj
      (fun hc => hne hc.symm)

theorem create_inv (l : List Student) (b : Payload) (h : StoreInv l) :
    StoreInv (create l b).2 := by
  by_cases hv : validateFull b = []
  · cases hfind : l.find? (fun s => jsToLower s.email == jsToLower (strVal b.email)) with
    | some e => simpa [create, hv, hfind] using h
    | none =>
      have h2 : (create l b).2 =
          l ++ [⟨maxId l + 1, strVal b.name, numVal b.age, strVal b.email,
                 boolVal b.isActive⟩] := by
        simp [create, hv, hfind]
      rw [h2]
      have hall := List.find?_eq_none.mp hfind
      constructor
      · simp only [EmailsDistinct, List.pairwise_append]
        refine ⟨h.1, by simp, ?_⟩
        intro a ha b' hb'
        simp only [List.mem_singleton] at hb'
        subst hb'
        have := hall a ha
        simpa using this
      · simp only [IdsDistinct, List.pairwise_append]
        refine ⟨h.2, by simp, ?_⟩
        intro a ha b' hb'
        simp only [List.mem_singleton] at hb'
        subst hb'
        have := maxId_ge l a ha
        simp only
        omega
  · simpa [create, hv] using h

theorem replace_inv (l : List Student) (id : Int) (b : Payload) (h : StoreInv l) :
    StoreInv (replace l id b).2 := by
  cases hfi : findIndex (fun s => s.id == id) l with
  | none => simpa [replace, hfi] using h
  | some i =>
    have hi := findIndex_some_lt hfi
    have hpid : l[i].id = id := by
      have := findIndex_some_prop hfi hi
      simpa using this
    by_cases hv : validateFull b = []
    · cases hfind : l.find?
          (fun s => jsToLower s.email == jsToLower (strVal b.email) && s.id != id) with
      | some e => simpa [replace, hfi, hv, hfind] using h
      | none =>
        have h2 : (replace l id b).2 =
            l.set i ⟨id, strVal b.name, numVal b.age, strVal b.email,
              boolVal b.isActive⟩ := by
          simp [replace, hfi, hv, hfind]
        rw [h2]
        apply storeInv_set l i hi _ hpid.symm ?_ h
        intro j hj hne
        have hnp := List.find?_eq_none.mp hfind l[j] (List.getElem_mem hj)
        have hjid : l[j].id ≠ id := by
          have hne' := pairwise_ne_getElem (fun a b hab => fun hc => hab hc.symm) h.2
            i j hi hj (fun hc => hne hc.symm)
          exact fun hc => hne' (hpid.trans hc.symm)
        intro hc
        apply hnp
        simp only at hc
        simp [hc.symm, hjid]
    · simpa [replace, hfi, hv] using h

theorem deleteStudent_inv (l : List Student) (id : Int) (h : StoreInv l) :
    StoreInv (deleteStudent l id).2 := by
  cases hfi : findIndex (fun s => s.id == id) l with
  | none => simpa [deleteStudent, hfi] using h
  | some i =>
    have h2 : (deleteStudent l id).2 = l.eraseIdx i := by simp [deleteStudent, hfi]
    rw [h2]
    exact ⟨h.1.sublist (List.eraseIdx_sublist l i), h.2.sublist (List.eraseIdx_sublist l i)⟩

/-- C2: for every store in which no two students share a
case-insensitively-equal email and all ids are distinct, each of create,
replace (PUT), patch and delete — whether it succeeds or returns an error
— yields a store in which both invariants still hold. -/
theorem C2_operations_preserve_invariants (l : List Student) (h : StoreInv l) :
    (∀ b, StoreInv (create l b).2) ∧
    (∀ id b, StoreInv (replace l id b).2) ∧
    (∀ id b, StoreInv (patch l id b).2) ∧
    (∀ id, StoreInv (deleteStudent l id).2) :=
  ⟨fun b => create_inv l b h, fun id b => replace_inv l id b h,
   fun id b => patch_inv l id b h, fun id => deleteStudent_inv l id h⟩

/-- Witness for C2: the shipped store satisfies the invariant, and the
four operations preserve it at concrete inputs (a successful create and a
patch that fails with a duplicate-email conflict among them). -/
theorem C2_witness :
    StoreInv (create demoStore
      ⟨some (.str "Eve"), some (.num 21), some (.str "eve@example.com"),
       some (.bool true)⟩).2 ∧
    StoreInv (replace demoStore 2
      ⟨some (.str "Bobby"), some (.num 25), some (.str "bobby@example.com"),
       some (.bool false)⟩).2 ∧
    StoreInv (patch demoStore 2 ⟨none, none, some (.str "ALICE@EXAMPLE.COM"), none⟩).2 ∧
    StoreInv (deleteStudent demoStore 1).2 := by
  have hinv : StoreInv demoStore := by
    constructor
    · unfold EmailsDistinct
      decide
    · unfold IdsDistinct
      decide
  exact ⟨(C2_operations_preserve_invariants demoStore hinv).1 _,
    (C2_operations_preserve_invariants demoStore hinv).2.1 2 _,
    (C2_operations_preserve_invariants demoStore hinv).2.2.1 2 _,
    (C2_operations_preserve_invariants demoStore hinv).2.2.2 1⟩

end ApiStudents
